import Mathlib

/-!
Verification development for the geoCore → pygeoapi provider
(`geocore_pygeoapi/provider/cgp.py`).

The Python module is shallowly embedded below.  Python/JSON runtime values
are modelled by the inductive type `JVal` (with `nan`/`inf` for the float
specials that Python's `json` module produces); dictionaries are modelled as
insertion-ordered association lists; Python exceptions are modelled by the
error type `Err` together with `Except`-valued functions.  Character classes
(digits, whitespace, case conversion) are modelled over ASCII, matching the
data handled by the provider.  The platform-conditional JSON-repair regex is
modelled for the POSIX platform (the branch the provider selects whenever
`os.name != 'nt'`).
-/

namespace GeoCore

/-- Python exceptions (and pygeoapi provider errors) that the embedded code
can raise.  The message payloads are irrelevant to the verified properties
and are omitted. -/
inductive Err where
  | typeError
  | valueError
  | attributeError
  | indexError
  | keyError
  | invalidQuery
  | noData
  | itemNotFound
  deriving DecidableEq, Repr

/-- Model of Python runtime values as produced by `json.loads` and
manipulated by the provider: JSON values plus the float specials `nan`,
`inf`/`-inf` that Python's JSON parser can produce. -/
inductive JVal where
  | null
  | bool (b : Bool)
  | num (q : ℚ)
  | nan
  | inf (neg : Bool)
  | str (s : String)
  | arr (elems : List JVal)
  | obj (entries : List (String × JVal))
  deriving Inhabited, Repr

/-- A Python dictionary with string keys: an insertion-ordered association
list (keys kept unique by the operations below). -/
abbrev JObj := List (String × JVal)

/-- Dictionary lookup (first binding wins; the operations keep keys unique). -/
def dget (d : JObj) (k : String) : Option JVal :=
  match d with
  | [] => none
  | (k', v) :: t => if k' = k then some v else dget t k

/-- Dictionary lookup with a default, like Python's `dict.get(k, dflt)`. -/
def dgetD (d : JObj) (k : String) (dflt : JVal) : JVal :=
  (dget d k).getD dflt

/-- Remove a key from a dictionary (keeping the order of the rest). -/
def dremove (d : JObj) (k : String) : JObj :=
  match d with
  | [] => []
  | (k', v) :: t => if k' = k then t else (k', v) :: dremove t k

/-- Python's `dict.pop(k, dflt)`: the removed value (or default) and the
remaining dictionary. -/
def dpop (d : JObj) (k : String) (dflt : JVal) : JVal × JObj :=
  ((dget d k).getD dflt, dremove d k)

/-- Python's `d[k] = v`: update in place (keeping the key's position) or
append a new binding. -/
def dset (d : JObj) (k : String) (v : JVal) : JObj :=
  match d with
  | [] => [(k, v)]
  | (k', v') :: t => if k' = k then (k, v) :: t else (k', v') :: dset t k v

/-- Python truthiness (`bool(v)`) for the modelled values.  Note that
`float('nan')` is truthy in Python. -/
def pyTruthy : JVal → Bool
  | .null => false
  | .bool b => b
  | .num q => q ≠ 0
  | .nan => true
  | .inf _ => true
  | .str s => s ≠ ""
  | .arr l => ¬ l.isEmpty
  | .obj l => ¬ l.isEmpty

/-- Python `==` on the modelled values (numbers and booleans compare by
value across types, `nan` is not equal to itself, dictionaries compare by
key lookup). -/
def pyEq (a b : JVal) : Bool :=
  match a, b with
  | .null, .null => true
  | .bool x, .bool y => x = y
  | .bool x, .num q => (if x then (1 : ℚ) else 0) = q
  | .num q, .bool y => q = (if y then (1 : ℚ) else 0)
  | .num p, .num q => p = q
  | .nan, _ => false
  | _, .nan => false
  | .inf x, .inf y => x = y
  | .str s, .str t => s = t
  | .arr xs, .arr ys => pyEqList xs ys
  | .obj xs, .obj ys =>
      xs.length = ys.length &&
      pyEqObj xs ys
  | _, _ => false
where
  /-- elementwise Python equality of two lists -/
  pyEqList : List JVal → List JVal → Bool
    | [], [] => true
    | x :: xs, y :: ys => pyEq x y && pyEqList xs ys
    | _, _ => false
  /-- every binding of the first dictionary is matched in the second -/
  pyEqObj : List (String × JVal) → List (String × JVal) → Bool
    | [], _ => true
    | (k, v) :: t, ys =>
        (match dget ys k with
         | some w => pyEq v w
         | none => false) && pyEqObj t ys

/-- Python floats as they occur in comparisons inside the provider:
`nan`, the two infinities, or a finite value. -/
inductive PyNum where
  | nan
  | pinf
  | ninf
  | fin (q : ℚ)
  deriving DecidableEq

/-- Python `<` on floats; every comparison involving `nan` is `False`. -/
def pyNumLt : PyNum → PyNum → Bool
  | .fin a, .fin b => a < b
  | .fin _, .pinf => true
  | .ninf, .fin _ => true
  | .ninf, .pinf => true
  | _, _ => false

/-- View of a value as a number for ordering purposes (`bool` counts as
`0`/`1`); everything else raises `TypeError` when compared with a float. -/
def asPyNum : JVal → Except Err PyNum
  | .num q => .ok (.fin q)
  | .bool b => .ok (.fin (if b then 1 else 0))
  | .nan => .ok .nan
  | .inf neg => .ok (if neg then .ninf else .pinf)
  | _ => .error .typeError

/-- Python's `min(x, acc)` (two arguments): keeps `x` unless `acc < x`. -/
def pyMin2 (x acc : JVal) : Except Err JVal := do
  let px ← asPyNum x
  let pa ← asPyNum acc
  return if pyNumLt pa px then acc else x

/-- Python's `max(x, acc)` (two arguments): keeps `x` unless `acc > x`. -/
def pyMax2 (x acc : JVal) : Except Err JVal := do
  let px ← asPyNum x
  let pa ← asPyNum acc
  return if pyNumLt px pa then acc else x

/-- Iterating a Python value (`for x in v`): lists yield elements, strings
yield one-character strings, dictionaries yield their keys; other values
raise `TypeError`. -/
def pyIter : JVal → Except Err (List JVal)
  | .arr l => .ok l
  | .str s => .ok (s.toList.map fun c => .str (String.mk [c]))
  | .obj l => .ok (l.map fun kv => .str kv.1)
  | _ => .error .typeError

/-- Unpacking `x, y = v`: needs an iterable of exactly two elements. -/
def unpack2 (v : JVal) : Except Err (JVal × JVal) := do
  let l ← pyIter v
  match l with
  | [a, b] => .ok (a, b)
  | _ => .error .valueError

/-- Python's `v[0]`: indexing into a list or string; dictionaries raise
`KeyError` for the key `0`, other values `TypeError`. -/
def pyIndex0 : JVal → Except Err JVal
  | .arr (x :: _) => .ok x
  | .arr [] => .error .indexError
  | .str s =>
      match s.toList with
      | c :: _ => .ok (.str (String.mk [c]))
      | [] => .error .indexError
  | .obj _ => .error .keyError
  | _ => .error .typeError

/-- Python's `v.get(k, dflt)`: only dictionaries have `.get`; everything
else raises `AttributeError`. -/
def pyGetD (v : JVal) (k : String) (dflt : JVal) : Except Err JVal :=
  match v with
  | .obj d => .ok (dgetD d k dflt)
  | _ => .error .attributeError

/-- Python's `x in v` (membership): substring test on strings, elementwise
`==` on lists, key lookup on dictionaries; numbers are not containers. -/
def pyContains (x : JVal) (v : JVal) : Except Err Bool :=
  match v with
  | .str s =>
      match x with
      | .str t => .ok ((s.splitOn t).length ≠ 1)
      | _ => .error .typeError
  | .arr l => .ok (l.any fun e => pyEq x e)
  | .obj d =>
      match x with
      | .str t => .ok (d.any fun kv => kv.1 = t)
      | .arr _ | .obj _ => .error .typeError
      | _ => .ok false
  | _ => .error .typeError

/-- ASCII decimal digit test (the regex class `\d` over the provider's
ASCII data). -/
def isDig (c : Char) : Bool := '0' ≤ c ∧ c ≤ '9'

/-- Numeric value of a nonempty ASCII digit string (Python `int(s)` for the
plain digit strings produced by the date regex). -/
def natOfDigits (cs : List Char) : Nat :=
  cs.foldl (fun acc c => acc * 10 + (c.toNat - 48)) 0

/-- ASCII whitespace, as stripped by Python's `str.strip()` over the
provider's data. -/
def isWs (c : Char) : Bool :=
  c = ' ' ∨ c = '\t' ∨ c = '\n' ∨ c = '\r' ∨ c = '\x0b' ∨ c = '\x0c'

/-- Strip characters satisfying `p` from both ends of a character list. -/
def stripBy (p : Char → Bool) (cs : List Char) : List Char :=
  ((cs.dropWhile p).reverse.dropWhile p).reverse

/-- Python's `str.strip()` (no argument): strip whitespace from both ends. -/
def pyStripWs (s : String) : String :=
  String.mk (stripBy isWs s.toList)

/-- Python's `str.strip(chars)`: strip any of the given characters from
both ends. -/
def pyStripChars (chars : List Char) (s : String) : String :=
  String.mk (stripBy (fun c => chars.contains c) s.toList)

/-- Python's `str.lower()` over ASCII data. -/
def pyLower (s : String) : String :=
  String.mk (s.toList.map Char.toLower)

/-- Count the occurrences of a character in a string (Python's
`str.count(c)` for a one-character argument). -/
def countChar (c : Char) (s : String) : Nat :=
  s.toList.count c

/-- Helper for `replaceSub`, structurally recursive on a fuel bound (the
fuel is always at least the length of the scanned list, and every step
consumes at least one character). -/
def replaceSubAux (old new : List Char) : Nat → List Char → List Char
  | 0, _ => []
  | _ + 1, [] => []
  | fuel + 1, c :: t =>
      if old ≠ [] ∧ old.isPrefixOf (c :: t) then
        new ++ replaceSubAux old new fuel ((c :: t).drop old.length)
      else
        c :: replaceSubAux old new fuel t

/-- Python's `str.replace(old, new)` on character lists: replace every
non-overlapping occurrence, scanning left to right. -/
def replaceSub (old new : List Char) (cs : List Char) : List Char :=
  replaceSubAux old new cs.length cs

/-- Python's `str.split(sep)` for a one-character separator: keeps empty
parts, like `"a;;b".split(';') == ['a', '', 'b']`. -/
def splitChar (sep : Char) (s : String) : List String :=
  (s.toList.foldr
    (fun c acc =>
      match acc with
      | [] => [[c]]
      | h :: t => if c = sep then [] :: (h :: t) else (c :: h) :: t)
    [[]]).map String.mk

/-- Update-or-append on a generic insertion-ordered association list
(Python `d[k] = v` for string-valued dictionaries). -/
def aset {α : Type} (d : List (String × α)) (k : String) (v : α) :
    List (String × α) :=
  match d with
  | [] => [(k, v)]
  | (k', v') :: t => if k' = k then (k, v) :: t else (k', v') :: aset t k v

/-- Lookup on a generic association list. -/
def aget {α : Type} (d : List (String × α)) (k : String) : Option α :=
  match d with
  | [] => none
  | (k', v) :: t => if k' = k then some v else aget t k

/-- Greedy match of the regex piece `(\d{0,2})`: up to two ASCII digits. -/
def takeUpTo2Digits (cs : List Char) : List Char × List Char :=
  match cs with
  | c1 :: t1 =>
      if isDig c1 then
        match t1 with
        | c2 :: t2 => if isDig c2 then ([c1, c2], t2) else ([c1], t1)
        | [] => ([c1], [])
      else ([], cs)
  | [] => ([], [])

/-- Greedy match of an optional single character (regex `c?` or `[..]?`). -/
def skipOptChar (p : Char → Bool) (cs : List Char) : List Char :=
  match cs with
  | c :: t => if p c then t else cs
  | [] => []

/-- The module's `DATE_REGEX`
`(\d{4})-?(\d{0,2})-?(\d{0,2})[T| ]?(\d{0,2}):?(\d{0,2}):?(\d{0,2})`,
applied with `re.match` (anchored at the start, rest ignored).  Every
sub-pattern after the four leading digits can match the empty string, so
plain greedy left-to-right scanning is the exact match semantics.  Returns
the six capture groups. -/
def dateMatch (s : String) :
    Option (List Char × List Char × List Char × List Char × List Char × List Char) :=
  match s.toList with
  | a :: b :: c :: d :: rest =>
      if isDig a ∧ isDig b ∧ isDig c ∧ isDig d then
        let r1 := skipOptChar (· = '-') rest
        let (g2, r2) := takeUpTo2Digits r1
        let r3 := skipOptChar (· = '-') r2
        let (g3, r4) := takeUpTo2Digits r3
        let r5 := skipOptChar (fun ch => ch = 'T' ∨ ch = '|' ∨ ch = ' ') r4
        let (g4, r6) := takeUpTo2Digits r5
        let r7 := skipOptChar (· = ':') r6
        let (g5, r8) := takeUpTo2Digits r7
        let r9 := skipOptChar (· = ':') r8
        let (g6, _) := takeUpTo2Digits r9
        some ([a, b, c, d], g2, g3, g4, g5, g6)
      else none
  | _ => none

/-- Gregorian leap-year rule used by Python's `datetime`. -/
def isLeap (y : Nat) : Bool := y % 4 = 0 ∧ (y % 100 ≠ 0 ∨ y % 400 = 0)

/-- Days in a month, as validated by Python's `datetime`. -/
def daysInMonth (y m : Nat) : Nat :=
  if m = 2 then (if isLeap y then 29 else 28)
  else if m = 4 ∨ m = 6 ∨ m = 9 ∨ m = 11 then 30
  else 31

/-- Validity of `datetime(y, mo, d, h, mi, s)` (raises `ValueError` when
false). -/
def datetimeValid (y mo d h mi s : Nat) : Bool :=
  1 ≤ y ∧ y ≤ 9999 ∧ 1 ≤ mo ∧ mo ≤ 12 ∧ 1 ≤ d ∧ d ≤ daysInMonth y mo ∧
  h ≤ 23 ∧ mi ≤ 59 ∧ s ≤ 59

/-- Zero-padded decimal rendering of width `w`. -/
def padNum (w n : Nat) : String :=
  let s := toString n
  String.mk (List.replicate (w - s.length) '0') ++ s

/-- `datetime.isoformat()` for a datetime with zero microseconds. -/
def isoformatDT (y mo d h mi s : Nat) : String :=
  padNum 4 y ++ "-" ++ padNum 2 mo ++ "-" ++ padNum 2 d ++ "T" ++
  padNum 2 h ++ ":" ++ padNum 2 mi ++ ":" ++ padNum 2 s

/-- The generator expression `int(i) if i else 1` applied to a capture
group: an empty group defaults to `1`, including the time groups. -/
def groupVal (g : List Char) : Nat :=
  if g.isEmpty then 1 else natOfDigits g

/-- The provider's `_asisodate`: match `DATE_REGEX`, feed the groups to
`datetime` (empty groups default to `1`), return `None` on any
`ValueError`/`TypeError`/`AttributeError` or when the year is 1, otherwise
the ISO timestamp with a literal `Z` suffix.  A non-string input makes
`DATE_REGEX.match` raise `TypeError`, which is caught, hence `none`. -/
def _asisodate (v : JVal) : Option String :=
  match v with
  | .str s =>
      match dateMatch s with
      | none => none
      | some (g1, g2, g3, g4, g5, g6) =>
          let y := groupVal g1
          let mo := groupVal g2
          let d := groupVal g3
          let h := groupVal g4
          let mi := groupVal g5
          let sec := groupVal g6
          if datetimeValid y mo d h mi sec then
            if y = 1 then none
            else some (isoformatDT y mo d h mi sec ++ "Z")
          else none
  | _ => none

/-- Value of one ASCII hex digit. -/
def hexDigitVal (c : Char) : Option Nat :=
  if '0' ≤ c ∧ c ≤ '9' then some (c.toNat - 48)
  else if 'a' ≤ c ∧ c ≤ 'f' then some (c.toNat - 87)
  else if 'A' ≤ c ∧ c ≤ 'F' then some (c.toNat - 55)
  else none

/-- Scan the digits of an integer literal in base `b`: single underscores
are allowed between digits, not doubled and not trailing. -/
def scanDigits (digitVal : Char → Option Nat) (b : Nat) :
    Nat → List Char → Option Nat
  | acc, [] => some acc
  | acc, '_' :: c :: t =>
      match digitVal c with
      | some v => scanDigits digitVal b (acc * b + v) t
      | none => none
  | _, ['_'] => none
  | acc, c :: t =>
      match digitVal c with
      | some v => scanDigits digitVal b (acc * b + v) t
      | none => none

/-- Python's `int(s, 16)`: optional surrounding whitespace, optional sign,
optional `0x`/`0X` prefix (an underscore may directly follow the prefix),
then hex digits with single underscores between digits. -/
def pyIntBase16 (s : String) : Option Int :=
  let cs := stripBy isWs s.toList
  let (neg, cs1) :=
    match cs with
    | '+' :: t => (false, t)
    | '-' :: t => (true, t)
    | _ => (false, cs)
  let (hadPre, cs2) :=
    match cs1 with
    | '0' :: x :: t => if x = 'x' ∨ x = 'X' then (true, t) else (false, cs1)
    | _ => (false, cs1)
  let cs3 :=
    match cs2 with
    | '_' :: t => if hadPre then t else cs2
    | _ => cs2
  match cs3 with
  | [] => none
  | '_' :: _ => none
  | c :: t =>
      match hexDigitVal c with
      | some v =>
          match scanDigits hexDigitVal 16 v t with
          | some n => some (if neg then -(n : Int) else (n : Int))
          | none => none
      | none => none

/-- Python's `uuid.UUID(s)` constructor applied to a string: strip
`urn:`/`uuid:` occurrences and surrounding braces, drop every hyphen,
require exactly 32 remaining characters forming a base-16 integer literal
in `[0, 2^128)`. -/
def uuidOk (s : String) : Bool :=
  let h1 := replaceSub "urn:".toList [] s.toList
  let h2 := replaceSub "uuid:".toList [] h1
  let h3 := stripBy (fun c => c = '\x7b' ∨ c = '\x7d') h2
  let h4 := replaceSub ['-'] [] h3
  if h4.length = 32 then
    match pyIntBase16 (String.mk h4) with
    | some n => decide (0 ≤ n ∧ n < 2 ^ 128)
    | none => false
  else false

/-- The provider's `_valid_id`: `True` iff `UUID(identifier)` succeeds;
`TypeError`/`ValueError`/`AttributeError` (e.g. a non-string identifier)
yield `False`. -/
def _valid_id (v : JVal) : Bool :=
  match v with
  | .str s => uuidOk s
  | _ => false

/-- Truncation of a rational toward zero (Python `int(float)`). -/
def ratTrunc (q : ℚ) : Int :=
  if q < 0 then -((-q).floor) else q.floor

/-- Python's `int(s)` for a base-10 string literal. -/
def pyIntStr (s : String) : Option Int :=
  let digitVal : Char → Option Nat := fun c => if isDig c then some (c.toNat - 48) else none
  let cs := stripBy isWs s.toList
  let (neg, cs1) :=
    match cs with
    | '+' :: t => (false, t)
    | '-' :: t => (true, t)
    | _ => (false, cs)
  match cs1 with
  | [] => none
  | '_' :: _ => none
  | c :: t =>
      match digitVal c with
      | some v =>
          match scanDigits digitVal 10 v t with
          | some n => some (if neg then -(n : Int) else (n : Int))
          | none => none
      | none => none

/-- Python's `int(v)` on the modelled values: booleans and finite numbers
convert (floats truncate toward zero), `nan`/`inf` raise, strings must be
integer literals, containers and `None` raise `TypeError`. -/
def pyInt : JVal → Except Err Int
  | .bool b => .ok (if b then 1 else 0)
  | .num q => .ok (ratTrunc q)
  | .nan => .error .valueError
  | .inf _ => .error .valueError
  | .str s =>
      match pyIntStr s with
      | some n => .ok n
      | none => .error .valueError
  | _ => .error .typeError

/-- The provider's `_aslist` (with the default delimiter `,`):
`[v.strip() for v in (value or '').split(',') if v.strip()]`.  A falsy
value is replaced by `''`, whose split produces no surviving parts; a
truthy non-string has no `.split`, raising `AttributeError`. -/
def _aslist (v : JVal) : Except Err (List String) :=
  if ¬ pyTruthy v then .ok []
  else
    match v with
    | .str s => .ok (((splitChar ',' s).map pyStripWs).filter (· ≠ ""))
    | _ => .error .attributeError

/-- The provider's `_asdict` (with the default delimiters `,` and `=`):
returns `{}` when the value is falsy or contains no `=`; otherwise strips
surrounding braces, splits on `,`, splits each part on `=` (a part without
`=` makes the 2-tuple unpacking raise `ValueError`), strips both sides, and
builds a dictionary (later duplicate keys win). -/
def _asdict (v : JVal) : Except Err (List (String × String)) :=
  if ¬ pyTruthy v then .ok []
  else do
    let hasPair ← pyContains (.str "=") v
    if ¬ hasPair then .ok []
    else
      match v with
      | .str s => do
          let core := pyStripChars ['\x7b', '\x7d'] s
          let parts := splitChar ',' core
          let pairs ← parts.mapM fun p =>
            match splitChar '=' p with
            | k :: w :: _ => Except.ok (pyStripWs k, pyStripWs w)
            | _ => Except.error Err.valueError
          return pairs.foldl (fun d kv => aset d kv.1 kv.2) []
      | _ => .error .attributeError

/-- One point of `_getbbox`'s scan: `for x, y in part` with the four
running `min`/`max` updates, in source order. -/
def bboxPoint (acc : JVal × JVal × JVal × JVal) (pt : JVal) :
    Except Err (JVal × JVal × JVal × JVal) := do
  let (x, y) ← unpack2 pt
  let minx ← pyMin2 x acc.1
  let miny ← pyMin2 y acc.2.1
  let maxx ← pyMax2 x acc.2.2.1
  let maxy ← pyMax2 y acc.2.2.2
  return (minx, miny, maxx, maxy)

/-- Scan of the points of one ring. -/
def bboxPts : List JVal → JVal × JVal × JVal × JVal →
    Except Err (JVal × JVal × JVal × JVal)
  | [], acc => .ok acc
  | p :: t, acc => do bboxPts t (← bboxPoint acc p)

/-- Scan of all rings (`for part in coords`). -/
def bboxParts : List JVal → JVal × JVal × JVal × JVal →
    Except Err (JVal × JVal × JVal × JVal)
  | [], acc => .ok acc
  | part :: t, acc => do
      let pts ← pyIter part
      let acc' ← bboxPts pts acc
      bboxParts t acc'

/-- The provider's `_getbbox`: running min/max over every `[x, y]` of every
ring, seeded at `NaN` (so an empty scan yields an all-`NaN` box; Python's
two-argument `min`/`max` keep the first argument when the comparison with
`NaN` is false). -/
def _getbbox (coords : JVal) : Except Err (List JVal) := do
  let parts ← pyIter coords
  let (minx, miny, maxx, maxy) ← bboxParts parts (.nan, .nan, .nan, .nan)
  return [minx, miny, maxx, maxy]

/-- Option-to-Python-value view: a missing string becomes `None`. -/
def jOfOptStr : Option String → JVal
  | some s => .str s
  | none => .null

/-- The provider's `_gettimerange`: parse the `{begin=.., end=..}` string
with `_asdict` and date-normalize each side independently. -/
def _gettimerange (v : JVal) : Except Err (List JVal) := do
  let t ← _asdict v
  let beginSide := jOfOptStr (_asisodate (jOfOptStr (aget t "begin")))
  let endSide := jOfOptStr (_asisodate (jOfOptStr (aget t "end")))
  return [beginSide, endSide]

/-- The provider's `_getextent`: fixed-shape extent object pairing the bbox
(wrapped as `[[bbox]]`) with the constant CRS, and the temporal interval
with the constant TRS. -/
def _getextent (coords tempv : JVal) : Except Err JVal := do
  let bbox ← _getbbox coords
  let interval ← _gettimerange tempv
  return .obj [
    ("spatial", .obj [
      ("bbox", .arr [.arr [.arr bbox]]),
      ("crs", .str "http://www.opengis.net/def/crs/OGC/1.3/CRS84")]),
    ("temporal", .obj [
      ("interval", .arr interval),
      ("trs", .str "http://www.opengis.net/def/uom/ISO-8601/0/Gregorian")])]

/-- JSON whitespace accepted by Python's `json` module between tokens. -/
def isJsonWs (c : Char) : Bool :=
  c = ' ' ∨ c = '\t' ∨ c = '\n' ∨ c = '\r'

/-- Skip JSON whitespace. -/
def skipWs (cs : List Char) : List Char :=
  cs.dropWhile isJsonWs

/-- Parse the contents of a JSON string literal after the opening quote.
Strict mode (the `json.loads` default): unescaped control characters are
rejected.  Surrogate-pair `\uXXXX` escapes are combined; lone surrogates
(which Python would keep) are not representable as `Char` and are treated
as a parse failure — the provider's data contains none. -/
def pStr (acc : List Char) : List Char → Option (String × List Char)
  | [] => none
  | '"' :: rest => some (String.mk acc.reverse, rest)
  | '\\' :: e :: rest =>
      match e with
      | '"' => pStr ('"' :: acc) rest
      | '\\' => pStr ('\\' :: acc) rest
      | '/' => pStr ('/' :: acc) rest
      | 'b' => pStr ('\x08' :: acc) rest
      | 'f' => pStr ('\x0c' :: acc) rest
      | 'n' => pStr ('\n' :: acc) rest
      | 'r' => pStr ('\r' :: acc) rest
      | 't' => pStr ('\t' :: acc) rest
      | 'u' =>
          match rest with
          | h1 :: h2 :: h3 :: h4 :: rest2 =>
              match hexDigitVal h1, hexDigitVal h2, hexDigitVal h3, hexDigitVal h4 with
              | some v1, some v2, some v3, some v4 =>
                  let code := ((v1 * 16 + v2) * 16 + v3) * 16 + v4
                  if 0xD800 ≤ code ∧ code ≤ 0xDBFF then
                    match rest2 with
                    | '\\' :: 'u' :: l1 :: l2 :: l3 :: l4 :: rest3 =>
                        match hexDigitVal l1, hexDigitVal l2, hexDigitVal l3, hexDigitVal l4 with
                        | some w1, some w2, some w3, some w4 =>
                            let lo := ((w1 * 16 + w2) * 16 + w3) * 16 + w4
                            if 0xDC00 ≤ lo ∧ lo ≤ 0xDFFF then
                              let cp := 0x10000 + (code - 0xD800) * 0x400 + (lo - 0xDC00)
                              if h : cp.isValidChar then
                                pStr (Char.ofNatAux cp h :: acc) rest3
                              else none
                            else none
                        | _, _, _, _ => none
                    | _ => none
                  else if 0xDC00 ≤ code ∧ code ≤ 0xDFFF then none
                  else
                    if h : code.isValidChar then
                      pStr (Char.ofNatAux code h :: acc) rest2
                    else none
              | _, _, _, _ => none
          | _ => none
      | _ => none
  | c :: rest =>
      if c.toNat < 0x20 then none else pStr (c :: acc) rest

/-- Parse the digit run of a JSON number. -/
def pDigits (acc : List Char) : List Char → List Char × List Char
  | [] => (acc.reverse, [])
  | c :: t => if isDig c then pDigits (c :: acc) t else (acc.reverse, c :: t)

/-- Parse a JSON number per Python's `json` grammar
`(-?(0|[1-9]\d*))(\.\d+)?([eE][-+]?\d+)?`, as an exact rational. -/
def pNumber (cs : List Char) : Option (ℚ × List Char) := do
  let (neg, cs1) :=
    match cs with
    | '-' :: t => (true, t)
    | _ => (false, cs)
  let (ipart, cs2) ←
    match cs1 with
    | '0' :: t => some (([ '0' ] : List Char), t)
    | c :: t =>
        if isDig c ∧ c ≠ '0' then
          let (ds, r) := pDigits [] t
          some (c :: ds, r)
        else none
    | [] => none
  let (fpart, cs3) ←
    match cs2 with
    | '.' :: t =>
        let (ds, r) := pDigits [] t
        if ds.isEmpty then none else some (ds, r)
    | _ => some (([] : List Char), cs2)
  let (epos, edigits, cs4) ←
    match cs3 with
    | e :: t =>
        if e = 'e' ∨ e = 'E' then
          let (esign, t1) :=
            match t with
            | '+' :: t' => (true, t')
            | '-' :: t' => (false, t')
            | _ => (true, t)
          let (ds, r) := pDigits [] t1
          if ds.isEmpty then none else some (esign, ds, r)
        else some (true, ([] : List Char), cs3)
    | [] => some (true, ([] : List Char), cs3)
  let mantissa : Nat := natOfDigits (ipart ++ fpart)
  let e : Int := (if epos then (natOfDigits edigits : Int) else -(natOfDigits edigits : Int)) -
    (fpart.length : Int)
  let signed : Int := if neg then -(mantissa : Int) else (mantissa : Int)
  let q : ℚ :=
    if 0 ≤ e then Rat.divInt (signed * (10 ^ e.toNat : Nat)) 1
    else Rat.divInt signed ((10 ^ (-e).toNat : Nat) : Int)
  some (q, cs4)

/-- Does the literal word start the input (used for the JSON keywords and
the Python-specific `NaN`/`Infinity` constants)? -/
def startsWith (w : List Char) (cs : List Char) : Bool :=
  w.isPrefixOf cs

mutual

/-- Parse one JSON value (Python `json.loads` grammar, which also accepts
`NaN`, `Infinity` and `-Infinity`).  Structural recursion on `fuel`; each
nested value consumes at least one character, so `length + 1` fuel is
always sufficient. -/
def pValue : Nat → List Char → Option (JVal × List Char)
  | 0, _ => none
  | _ + 1, [] => none
  | fuel + 1, c :: rest =>
      if c = '"' then
        match pStr [] rest with
        | some (s, r) => some (.str s, r)
        | none => none
      else if c = '\x7b' then pObjEntries fuel (skipWs rest) []
      else if c = '[' then pArrElems fuel (skipWs rest) []
      else if startsWith "true".toList (c :: rest) then
        some (.bool true, (c :: rest).drop 4)
      else if startsWith "false".toList (c :: rest) then
        some (.bool false, (c :: rest).drop 5)
      else if startsWith "null".toList (c :: rest) then
        some (.null, (c :: rest).drop 4)
      else if startsWith "NaN".toList (c :: rest) then
        some (.nan, (c :: rest).drop 3)
      else if startsWith "Infinity".toList (c :: rest) then
        some (.inf false, (c :: rest).drop 8)
      else if startsWith "-Infinity".toList (c :: rest) then
        some (.inf true, (c :: rest).drop 9)
      else
        match pNumber (c :: rest) with
        | some (q, r) => some (.num q, r)
        | none => none

/-- Parse array elements after `[` (with leading whitespace consumed). -/
def pArrElems : Nat → List Char → List JVal → Option (JVal × List Char)
  | 0, _, _ => none
  | _ + 1, [], _ => none
  | fuel + 1, c :: rest, acc =>
      if c = ']' ∧ acc.isEmpty then some (.arr [], rest)
      else
        match pValue fuel (skipWs (c :: rest)) with
        | some (v, r) =>
            match skipWs r with
            | ',' :: r2 => pArrElems fuel (skipWs r2) (acc ++ [v])
            | ']' :: r2 => some (.arr (acc ++ [v]), r2)
            | _ => none
        | none => none

/-- Parse object entries after the opening brace (leading whitespace
consumed); duplicate keys keep the last value, like Python's `dict`. -/
def pObjEntries : Nat → List Char → JObj → Option (JVal × List Char)
  | 0, _, _ => none
  | _ + 1, [], _ => none
  | fuel + 1, c :: rest, acc =>
      if c = '\x7d' ∧ acc.isEmpty then some (.obj [], rest)
      else if c = '"' then
        match pStr [] rest with
        | some (k, r) =>
            match skipWs r with
            | ':' :: r2 =>
                match pValue fuel (skipWs r2) with
                | some (v, r3) =>
                    match skipWs r3 with
                    | ',' :: r4 => pObjEntries fuel (skipWs r4) (dset acc k v)
                    | '\x7d' :: r4 => some (.obj (dset acc k v), r4)
                    | _ => none
                | none => none
            | _ => none
        | none => none
      else none

end

/-- Python's `json.loads` on a string: parse one value and require only
whitespace to remain. -/
def json_loads (s : String) : Option JVal :=
  match pValue (s.length + 1) (skipWs s.toList) with
  | some (v, rest) => if (skipWs rest).isEmpty then some v else none
  | none => none

/-- Opening literal of the POSIX `JSON_REGEX` pattern
`("\\"\\".+?\\"\\"")`: the five characters quote, backslash, quote,
backslash, quote. -/
def opener : List Char := ['"', '\\', '"', '\\', '"']

/-- Closing literal of the POSIX `JSON_REGEX` pattern: backslash, quote,
backslash, quote, quote. -/
def closer : List Char := ['\\', '"', '\\', '"', '"']

/-- Lazy scan for the closing literal (`.+?` followed by the closer): at
least one body character, each not a newline (regex `.`), stopping at the
earliest position where the closer follows. -/
def findCloser (body : List Char) : List Char → Option (List Char × List Char)
  | [] => none
  | c :: rest =>
      if c = '\n' then none
      else if closer.isPrefixOf rest then some (body ++ [c], rest.drop 5)
      else findCloser (body ++ [c]) rest

/-- Try to match the full pattern starting exactly at the head of the
input, returning the matched span and the remainder. -/
def tryMatchAt (cs : List Char) : Option (List Char × List Char) :=
  if opener.isPrefixOf cs then
    match findCloser [] (cs.drop 5) with
    | some (body, rest) => some (opener ++ body ++ closer, rest)
    | none => none
  else none

/-- Leftmost match of the pattern: the text before the match, the match,
and the remainder (the scan order of `re.sub`). -/
def findMatch : List Char → Option (List Char × List Char × List Char)
  | [] => none
  | c :: t =>
      match tryMatchAt (c :: t) with
      | some (m, rest) => some ([], m, rest)
      | none =>
          match findMatch t with
          | some (p, m, r) => some (c :: p, m, r)
          | none => none

/-- Value of one ASCII octal digit. -/
def octDigitVal (c : Char) : Option Nat :=
  if '0' ≤ c ∧ c ≤ '7' then some (c.toNat - 48) else none

/-- Python's `codecs.escape_decode` (byte-string escape processing over the
provider's ASCII data): standard escapes, octal and `\xhh` escapes, unknown
escapes kept verbatim, a trailing backslash or malformed `\x` escape raises
`ValueError`. -/
def escapeDecodeAux : Nat → List Char → Except Err (List Char)
  | _, [] => .ok []
  | 0, _ :: _ => .error .valueError
  | _ + 1, ['\\'] => .error .valueError
  | fuel + 1, '\\' :: c :: r =>
      match octDigitVal c with
      | some v1 =>
          (match r with
           | d2 :: r2 =>
               match octDigitVal d2 with
               | some v2 =>
                   (match r2 with
                    | d3 :: r3 =>
                        match octDigitVal d3 with
                        | some v3 => do
                            let t ← escapeDecodeAux fuel r3
                            .ok (Char.ofNat ((v1 * 64 + v2 * 8 + v3) % 256) :: t)
                        | none => do
                            let t ← escapeDecodeAux fuel r2
                            .ok (Char.ofNat (v1 * 8 + v2) :: t)
                    | [] => .ok [Char.ofNat (v1 * 8 + v2)])
               | none => do
                   let t ← escapeDecodeAux fuel r
                   .ok (Char.ofNat v1 :: t)
           | [] => .ok [Char.ofNat v1])
      | none =>
          match c with
          | '\n' => escapeDecodeAux fuel r
          | '\\' => do
              let t ← escapeDecodeAux fuel r
              .ok ('\\' :: t)
          | '\'' => do
              let t ← escapeDecodeAux fuel r
              .ok ('\'' :: t)
          | '"' => do
              let t ← escapeDecodeAux fuel r
              .ok ('"' :: t)
          | 'a' => do
              let t ← escapeDecodeAux fuel r
              .ok ('\x07' :: t)
          | 'b' => do
              let t ← escapeDecodeAux fuel r
              .ok ('\x08' :: t)
          | 'f' => do
              let t ← escapeDecodeAux fuel r
              .ok ('\x0c' :: t)
          | 'n' => do
              let t ← escapeDecodeAux fuel r
              .ok ('\n' :: t)
          | 'r' => do
              let t ← escapeDecodeAux fuel r
              .ok ('\r' :: t)
          | 't' => do
              let t ← escapeDecodeAux fuel r
              .ok ('\t' :: t)
          | 'v' => do
              let t ← escapeDecodeAux fuel r
              .ok ('\x0b' :: t)
          | 'x' =>
              match r with
              | h1 :: h2 :: r2 =>
                  match hexDigitVal h1, hexDigitVal h2 with
                  | some v1, some v2 => do
                      let t ← escapeDecodeAux fuel r2
                      .ok (Char.ofNat (v1 * 16 + v2) :: t)
                  | _, _ => .error .valueError
              | _ => .error .valueError
          | _ => do
              let t ← escapeDecodeAux fuel r
              .ok ('\\' :: c :: t)
  | fuel + 1, c :: r => do
      let t ← escapeDecodeAux fuel r
      .ok (c :: t)

/-- Python's `codecs.escape_decode` (see `escapeDecodeAux`; every step
consumes at least one character, so `length` fuel always suffices). -/
def escape_decode (cs : List Char) : Except Err (List Char) :=
  escapeDecodeAux cs.length cs

/-- Python's `str.replace('""', '"')`: collapse doubled quotes, scanning
left to right. -/
def replaceQQ : List Char → List Char
  | '"' :: '"' :: r => '"' :: replaceQQ r
  | c :: r => c :: replaceQQ r
  | [] => []

/-- The provider's `unescape` replacement function, POSIX branch:
escape-decode the matched span, strip every remaining backslash, collapse
doubled quotes and strip surrounding quotes. -/
def unescapePosix (m : List Char) : Except Err (List Char) := do
  let d ← escape_decode m
  let d2 := d.filter (· ≠ '\\')
  return stripBy (· = '"') (replaceQQ d2)

/-- Worker for `re.sub(JSON_REGEX, unescape, body)`: repeatedly take the
leftmost match, replace it, and continue after it.  Structural recursion on
fuel; every match consumes at least 11 characters, so `length` fuel is
always sufficient (fuel exhaustion returns the remainder unchanged). -/
def subAux : Nat → List Char → Except Err (List Char)
  | 0, cs => .ok cs
  | fuel + 1, cs =>
      match findMatch cs with
      | none => .ok cs
      | some (p, m, rest) => do
          let u ← unescapePosix m
          let r ← subAux fuel rest
          return p ++ u ++ r

/-- The repair substitution of `_parse_json` (POSIX platform):
`JSON_REGEX.sub(unescape, body)`. -/
def jsonRegexSub (cs : List Char) : Except Err (List Char) :=
  subAux cs.length cs

/-- The provider's `_parse_json`: empty body yields `{}`; otherwise repair
the body, parse it as JSON ({} again on parse failure), then require an
`Items` member, raising `ProviderInvalidQueryError` otherwise (via
`result.get('errorMessage', ...)`, which needs `result` to be an object). -/
def _parse_json (body : String) : Except Err JVal :=
  if body = "" then .ok (.obj [])
  else do
    let repaired ← jsonRegexSub body.toList
    match json_loads (String.mk repaired) with
    | none => .ok (.obj [])
    | some result => do
        let hasItems ← pyContains (.str "Items") result
        if ¬ hasItems then
          match result with
          | .obj _ => Except.error Err.invalidQuery
          | _ => Except.error Err.attributeError
        else .ok result

/-- The module-level `lang` global.  It is set once to `"en"` and only ever
read by `_to_geojson` (the `global lang` declaration there has no matching
assignment), so it is a constant of the embedded program. -/
def lang : String := "en"

/-- The provider's `_getcoords`: pop `coordinates` (default `[]`); keep a
list as-is; JSON-decode a string, logging and returning `[]` on
`JSONDecodeError`; `json.loads` of any other type raises `TypeError`. -/
def _getcoords (item : JObj) : Except Err (JObj × JVal) :=
  let (c, item') := dpop item "coordinates" (.arr [])
  match c with
  | .arr _ => .ok (item', c)
  | .str s =>
      match json_loads s with
      | some v => .ok (item', v)
      | none => .ok (item', .arr [])
  | _ => .error .typeError

/-- The override step of the `for opt in options` loop of `_to_geojson`:
a description that is truthy and counts exactly two `;` overrides
type/rel/language by its three split parts. -/
def optOverride (desc : JVal) (protocol : JVal) :
    Except Err (JVal × String × String) :=
  if pyTruthy desc then
    match desc with
    | .str ds =>
        if countChar ';' ds = 2 then
          match splitChar ';' ds with
          | [a, b, c] => Except.ok (JVal.str a, b, c)
          | _ => Except.error Err.valueError
        else Except.ok (protocol, "item", lang)
    | .arr l =>
        -- a Python list also has `.count`, comparing elements with `==`
        if (l.filter (fun e => pyEq (.str ";") e)).length = 2 then
          Except.error Err.attributeError  -- a list has no `.split`
        else Except.ok (protocol, "item", lang)
    | _ => Except.error Err.attributeError
  else Except.ok (protocol, "item", lang)

/-- The link-building tail of the loop body (see `optOverride` for the
`type_, rel, i18n = desc.split(';')` part). -/
def processOpt (opt : JVal) : Except Err (Option JObj) := do
  let url ← pyGetD opt "url" .null
  let namev ← pyGetD opt "name" (.obj [])
  let title ← pyGetD namev lang .null
  let protocol ← pyGetD opt "protocol" .null
  let descv ← pyGetD opt "description" (.obj [])
  let desc ← pyGetD descv lang (.str "")
  let (type_, rel, i18n) ← optOverride desc protocol
  if ¬ (pyTruthy type_ ∧ pyTruthy url) then return none
  else return some [
    ("href", url),
    ("type", type_),
    ("rel", .str rel),
    ("title", title),
    ("hreflang", .str (pyLower i18n))]

/-- `item.setdefault('associations', []).append(lnk)`: append to the
existing list (a non-list value has no `.append`), or create the
one-element list. -/
def appendAssoc (item : JObj) (lnk : JObj) : Except Err JObj :=
  match dget item "associations" with
  | none => .ok (item ++ [("associations", .arr [.obj lnk])])
  | some (.arr l) => .ok (dset item "associations" (.arr (l ++ [.obj lnk])))
  | some _ => .error .attributeError

/-- The whole `for opt in options` loop: surviving links accumulate onto
the item's `associations` list in encounter order. -/
def processOptions : List JVal → JObj → Except Err JObj
  | [], item => .ok item
  | o :: os, item => do
      match ← processOpt o with
      | none => processOptions os item
      | some lnk => processOptions os (← appendAssoc item lnk)

/-- The per-item body of `_to_geojson`'s loop, in source order: pop and
validate `id` (an invalid id skips the record, returning `none`); set
`externalId`; pop `total` through `int(...)`; normalize the date fields;
listify `keywords`; derive geometry (unless `skip_geometry`) and extent
when the parsed coordinates are truthy; derive associations from
`options`; promote the first `graphicOverview` entry's `overviewfilename`;
attach the remaining fields as `properties`. -/
def processItem (skip_geometry : Bool) (item0 : JObj) :
    Except Err (Option (JVal × Int)) :=
  let feature0 : JObj := [("type", .str "Feature"), ("geometry", .null)]
  let (id_, item1) := dpop item0 "id" .null
  if ¬ _valid_id id_ then .ok none
  else do
  let feature1 := dset feature0 "id" id_
  let item2 := dset item1 "externalId" id_
  let (totv, item3) := dpop item2 "total" (.num 0)
  let num_matched ← pyInt totv
  let date_created := jOfOptStr (_asisodate (dgetD item3 "created" .null))
  let (pubv, item4) := dpop item3 "published" .null
  let date_updated := jOfOptStr (_asisodate pubv)
  let item5 := dset item4 "record-created" date_created
  let item6 := dset item5 "record-updated" date_updated
  let item7 := dset item6 "created" date_created
  let item8 := dset item7 "updated" date_updated
  let kw ← _aslist (dgetD item8 "keywords" .null)
  let item9 := dset item8 "keywords" (.arr (kw.map .str))
  let (item10, coords) ← _getcoords item9
  let (feature2, item11) ←
    if pyTruthy coords then do
      let f :=
        if skip_geometry then feature1
        else dset feature1 "geometry"
          (.obj [("type", .str "Polygon"), ("coordinates", coords)])
      let (tempv, itemA) := dpop item10 "temporalExtent" .null
      let ext ← _getextent coords tempv
      Except.ok (f, dset itemA "extent" ext)
    else Except.ok (feature1, item10)
  let (optsv, item12) := dpop item11 "options" (.arr [])
  let opts ← pyIter optsv
  let item13 ← processOptions opts item12
  let (gov, item14) := dpop item13 "graphicOverview" (.arr [.obj []])
  let gv0 ← pyIndex0 gov
  let url ← pyGetD gv0 "overviewfilename" .null
  let item15 := if pyTruthy url then dset item14 "thumbnailUrl" url else item14
  let featureF := dset feature2 "properties" (.obj item15)
  return some (.obj featureF, num_matched)

/-- The item loop of `_to_geojson`: surviving features accumulate in
order; `num_matched` is overwritten by each processed record's `total`
(records skipped for an invalid id do not reach that line). -/
def toGeoLoop (skip_geometry : Bool) :
    List JVal → List JVal × Option Int → Except Err (List JVal × Option Int)
  | [], acc => .ok acc
  | it :: rest, (fs, nm) => do
      match it with
      | .obj d =>
          match ← processItem skip_geometry d with
          | none => toGeoLoop skip_geometry rest (fs, nm)
          | some (f, n) => toGeoLoop skip_geometry rest (fs ++ [f], some n)
      | _ => .error .attributeError

/-- The provider's `_to_geojson`: process every item of `Items`; raise
`ProviderNoDataError` when nothing survived; return the lone feature when
`limit == 1`; otherwise assemble the `FeatureCollection`, attaching
`numberMatched` only when the last captured `total` was truthy. -/
def _to_geojson (json_obj : JVal) (limit : Int) (skip_geometry : Bool) :
    Except Err JVal := do
  let itemsv ← pyGetD json_obj "Items" (.arr [])
  let items ← pyIter itemsv
  let (features, num_matched) ← toGeoLoop skip_geometry items ([], none)
  match features with
  | [] => Except.error Err.noData
  | f :: _ =>
      if limit = 1 then return f
      else
        let collection : JObj := [
          ("type", .str "FeatureCollection"),
          ("features", .arr features),
          ("numberReturned", .num (features.length : ℚ))]
        match num_matched with
        | some n =>
            if n ≠ 0 then return .obj (dset collection "numberMatched" (.num (n : ℚ)))
            else return .obj collection
        | none => return .obj collection

/-- The parameter-building part of `query` (lines building `params`): the
bbox unpacking `minx, miny, maxx, maxy = bbox` with the east/west/north/
south assignment, else `keyword_only`; the 1-based `min`/`max` paging
bounds; the forwarded queryables; the free-text `keyword`. -/
def queryParams (startindex limit : Int) (bbox : List JVal)
    (properties : List (String × JVal)) (q : Option String) :
    Except Err JObj := do
  let params1 ←
    if bbox.isEmpty then Except.ok [("keyword_only", JVal.str "true")]
    else
      match bbox with
      | [minx, miny, maxx, maxy] =>
          Except.ok [("east", minx), ("west", maxx), ("north", maxy), ("south", miny)]
      | _ => Except.error Err.valueError
  let params2 := dset (dset params1 "min" (.num ((startindex + 1 : Int) : ℚ)))
    "max" (.num ((startindex + limit : Int) : ℚ))
  let params3 := properties.foldl (fun p kv => dset p kv.1 kv.2) params2
  match q with
  | some s => return dset params3 "keyword" (.str s)
  | none => return params3

/-- The provider's `query`, given the upstream response body for the one
GET request it performs: build the parameters (an unsupported `resulttype`
is only warned about), parse the body, transform to GeoJSON. -/
def query (startindex limit : Int) (resulttype : String) (bbox : List JVal)
    (properties : List (String × JVal)) (skip_geometry : Bool)
    (q : Option String) (body : String) : Except Err JVal := do
  let _unsupported := resulttype ≠ "results"
  let _params ← queryParams startindex limit bbox properties q
  let json_obj ← _parse_json body
  _to_geojson json_obj limit skip_geometry

/-- The provider's `get`, given the upstream response body: the identifier
is validated *before* the network request — for an invalid identifier the
result is `ProviderInvalidQueryError` regardless of the body, which models
failing fast without any network call.  An upstream response without
truthy `Items` raises `ProviderItemNotFoundError`; otherwise the item is
transformed with `limit == 1`. -/
def get (identifier : JVal) (body : String) : Except Err JVal := do
  if ¬ _valid_id identifier then Except.error Err.invalidQuery
  else do
    let json_obj ← _parse_json body
    let itemsv ← pyGetD json_obj "Items" (.arr [])
    if ¬ pyTruthy itemsv then Except.error Err.itemNotFound
    else _to_geojson json_obj 1 false

/-- Observer: the `geometry` member of a feature object. -/
def featGeometry (f : JVal) : Option JVal :=
  match f with
  | .obj d => dget d "geometry"
  | _ => none

/-- Observer: the `type` member of a GeoJSON object. -/
def featType (f : JVal) : Option JVal :=
  match f with
  | .obj d => dget d "type"
  | _ => none

/-- Observer: the `properties` member of a feature object. -/
def featProps (f : JVal) : Option JVal :=
  match f with
  | .obj d => dget d "properties"
  | _ => none

/-- Observer: whether a feature's properties contain an `extent` member. -/
def featHasExtent (f : JVal) : Bool :=
  match featProps f with
  | some (.obj p) => (dget p "extent").isSome
  | _ => false

/-- Observer: the `numberMatched` member of a collection object. -/
def collNumberMatched (res : JVal) : Option JVal :=
  match res with
  | .obj d => dget d "numberMatched"
  | _ => none

/-- Observer: the `numberReturned` member of a collection object. -/
def collNumberReturned (res : JVal) : Option JVal :=
  match res with
  | .obj d => dget d "numberReturned"
  | _ => none

/-- Observer: the current `associations` list of an item (empty when the
key is absent). -/
def assocsOf (item : JObj) : List JVal :=
  match dget item "associations" with
  | some (.arr l) => l
  | _ => []

/-- The links produced by a list of options entries, in encounter order
(dropped entries omitted) — the specification-level description of what
the options loop accumulates. -/
def collectLinks : List JVal → Except Err (List JVal)
  | [] => .ok []
  | o :: os => do
      match ← processOpt o with
      | none => collectLinks os
      | some lnk => do
          let rest ← collectLinks os
          return .obj lnk :: rest

/-- The localized description that `processOpt` consults:
`opt.get('description', {}).get(lang, '')`. -/
def descOf (opt : JVal) : Except Err JVal := do
  let descv ← pyGetD opt "description" (.obj [])
  pyGetD descv lang (.str "")

/-- The `url` that `processOpt` consults: `opt.get('url')`. -/
def urlOf (opt : JVal) : Except Err JVal :=
  pyGetD opt "url" .null

/-- Encode a list of rings of rational points as the corresponding
coordinate value. -/
def ringsToJVal (rs : List (List (ℚ × ℚ))) : JVal :=
  .arr (rs.map fun r => .arr (r.map fun p => .arr [.num p.1, .num p.2]))

/-- Invariant of `_getbbox`'s scan: the accumulator is either the all-NaN
seed with no point processed yet, or four finite numbers bounding every
processed point. -/
def bboxInv (acc : JVal × JVal × JVal × JVal) (S : List (ℚ × ℚ)) : Prop :=
  (S = [] ∧ acc = (.nan, .nan, .nan, .nan)) ∨
  (∃ a b c d : ℚ, acc = (.num a, .num b, .num c, .num d) ∧
    ∀ p ∈ S, a ≤ p.1 ∧ b ≤ p.2 ∧ p.1 ≤ c ∧ p.2 ≤ d)

/-- A record with a valid UUID and a one-point coordinate ring, used for
concrete runs. -/
def c2Item : JObj := [
  ("id", .str "c2a654b1-05a9-4f3c-9d83-52a23f3bc3d7"),
  ("coordinates", .arr [.arr [.arr [.num 1, .num 2]]])]

/-- The feature that `_to_geojson` derives from `c2Item` with
`skip_geometry=True`: `geometry` is `null`, yet `extent` is present. -/
def c2Feature : JVal := .obj [
  ("type", .str "Feature"),
  ("geometry", .null),
  ("id", .str "c2a654b1-05a9-4f3c-9d83-52a23f3bc3d7"),
  ("properties", .obj [
    ("externalId", .str "c2a654b1-05a9-4f3c-9d83-52a23f3bc3d7"),
    ("record-created", .null),
    ("record-updated", .null),
    ("created", .null),
    ("updated", .null),
    ("keywords", .arr []),
    ("extent", .obj [
      ("spatial", .obj [
        ("bbox", .arr [.arr [.arr [.num 1, .num 2, .num 1, .num 2]]]),
        ("crs", .str "http://www.opengis.net/def/crs/OGC/1.3/CRS84")]),
      ("temporal", .obj [
        ("interval", .arr [.null, .null]),
        ("trs", .str "http://www.opengis.net/def/uom/ISO-8601/0/Gregorian")])])])]

/-- An options entry whose description embeds `type;rel;language` with an
upper-case language tag. -/
def c6Opt : JVal := .obj [
  ("url", .str "http://example.org/data"),
  ("protocol", .str "HTTP"),
  ("name", .obj [("en", .str "Data")]),
  ("description", .obj [("en", .str "text/html;related;EN")])]

/-- The link the options loop derives from `c6Opt`: `rel` and `type` come
from the first two description parts, but `hreflang` is the *lowercased*
third part. -/
def c6Link : JObj := [
  ("href", .str "http://example.org/data"),
  ("type", .str "text/html"),
  ("rel", .str "related"),
  ("title", .str "Data"),
  ("hreflang", .str "en")]

/-- The body `"\"\"z\"\""` (eleven characters), a well-formed JSON string
literal that the repair substitution nevertheless rewrites. -/
def c4x1 : List Char := ['"', '\\', '"', '\\', '"', 'z', '\\', '"', '\\', '"', '"']

/-- A matched span whose replacement is empty (its unescaped content is
all quotes). -/
def c4Span : List Char := ['"', '\\', '"', '\\', '"', '"', '\\', '"', '\\', '"', '"']

/-- A body on which the repair is not idempotent: removing the middle span
splices the surrounding characters into a fresh match. -/
def c4x0 : List Char :=
  '"' :: c4Span ++ ['\\', '"', '\\', '"', 'z', '\\', '"', '\\', '"', '"']

/-- The feature that `processItem` derives from `c2Item` with
`skip_geometry=False`: Polygon geometry and an extent. -/
def c2FeatureGeo : JVal := .obj [
  ("type", .str "Feature"),
  ("geometry", .obj [
    ("type", .str "Polygon"),
    ("coordinates", .arr [.arr [.arr [.num 1, .num 2]]])]),
  ("id", .str "c2a654b1-05a9-4f3c-9d83-52a23f3bc3d7"),
  ("properties", .obj [
    ("externalId", .str "c2a654b1-05a9-4f3c-9d83-52a23f3bc3d7"),
    ("record-created", .null),
    ("record-updated", .null),
    ("created", .null),
    ("updated", .null),
    ("keywords", .arr []),
    ("extent", .obj [
      ("spatial", .obj [
        ("bbox", .arr [.arr [.arr [.num 1, .num 2, .num 1, .num 2]]]),
        ("crs", .str "http://www.opengis.net/def/crs/OGC/1.3/CRS84")]),
      ("temporal", .obj [
        ("interval", .arr [.null, .null]),
        ("trs", .str "http://www.opengis.net/def/uom/ISO-8601/0/Gregorian")])])])]

/-- A minimal valid record reporting `total = 7`. -/
def wItem1 : JObj :=
  [("id", .str "c2a654b1-05a9-4f3c-9d83-52a23f3bc3d7"), ("total", .num 7)]

/-- A second minimal valid record reporting `total = 7`. -/
def wItem2 : JObj :=
  [("id", .str "00000000-0000-0000-0000-000000000002"), ("total", .num 7)]

/-- The feature `_to_geojson` derives from `wItem1`. -/
def wFeature1 : JVal := .obj [
  ("type", .str "Feature"),
  ("geometry", .null),
  ("id", .str "c2a654b1-05a9-4f3c-9d83-52a23f3bc3d7"),
  ("properties", .obj [
    ("externalId", .str "c2a654b1-05a9-4f3c-9d83-52a23f3bc3d7"),
    ("record-created", .null),
    ("record-updated", .null),
    ("created", .null),
    ("updated", .null),
    ("keywords", .arr [])])]

/-- The feature `_to_geojson` derives from `wItem2`. -/
def wFeature2 : JVal := .obj [
  ("type", .str "Feature"),
  ("geometry", .null),
  ("id", .str "00000000-0000-0000-0000-000000000002"),
  ("properties", .obj [
    ("externalId", .str "00000000-0000-0000-0000-000000000002"),
    ("record-created", .null),
    ("record-updated", .null),
    ("created", .null),
    ("updated", .null),
    ("keywords", .arr [])])]

/-- The FeatureCollection `_to_geojson` assembles from `wItem1` and
`wItem2` (with a limit other than 1). -/
def wCollection : JVal := .obj [
  ("type", .str "FeatureCollection"),
  ("features", .arr [wFeature1, wFeature2]),
  ("numberReturned", .num 2),
  ("numberMatched", .num 7)]

/-! ### Helper lemmas -/

theorem ebind_ok {α β : Type} (a : α) (f : α → Except Err β) :
    (Except.ok a >>= f) = f a := rfl

theorem ebind_err {α β : Type} (e : Err) (f : α → Except Err β) :
    ((Except.error e : Except Err α) >>= f) = .error e := rfl

theorem epure_eq {α : Type} (a : α) : (pure a : Except Err α) = .ok a := rfl

theorem ebind_ok_iff {α β : Type} {x : Except Err α} {f : α → Except Err β}
    {b : β} : (x >>= f) = .ok b ↔ ∃ a, x = .ok a ∧ f a = .ok b := by
  cases x with
  | error e => simp [ebind_err]
  | ok a => simp [ebind_ok]

theorem dget_dset_self (d : JObj) (k : String) (v : JVal) :
    dget (dset d k v) k = some v := by
  induction d with
  | nil => simp [dget, dset]
  | cons kv t ih =>
      obtain ⟨k', v'⟩ := kv
      by_cases h : k' = k
      · subst h; simp [dget, dset]
      · simp [dget, dset, h, ih]

theorem dget_dset_ne (d : JObj) (k : String) (v : JVal) (k' : String)
    (h : k ≠ k') : dget (dset d k v) k' = dget d k' := by
  induction d with
  | nil => simp [dget, dset, h]
  | cons kv t ih =>
      obtain ⟨a, b⟩ := kv
      by_cases ha : a = k
      · subst ha
        simp [dget, dset, h]
      · simp [dget, dset, ha, ih]

theorem dget_dremove_ne (d : JObj) (k k' : String) (h : k ≠ k') :
    dget (dremove d k) k' = dget d k' := by
  induction d with
  | nil => simp [dget, dremove]
  | cons kv t ih =>
      obtain ⟨a, b⟩ := kv
      by_cases ha : a = k
      · subst ha
        simp [dget, dremove, h]
      · simp [dget, dremove, ha, ih]

theorem dget_append_ne (d : JObj) (a : String) (v : JVal) (k : String)
    (h : a ≠ k) : dget (d ++ [(a, v)]) k = dget d k := by
  induction d with
  | nil => simp [dget, h]
  | cons kv t ih =>
      obtain ⟨x, y⟩ := kv
      by_cases hx : x = k
      · simp [dget, hx]
      · simp [dget, hx, ih]

theorem dget_append_self (d : JObj) (a : String) (v : JVal)
    (h : dget d a = none) : dget (d ++ [(a, v)]) a = some v := by
  induction d with
  | nil => simp [dget]
  | cons kv t ih =>
      obtain ⟨x, y⟩ := kv
      by_cases hx : x = a
      · subst hx; simp [dget] at h
      · simp [dget, hx] at h ⊢
        exact ih h

/-! ### C8: identifier validation -/

/-- C8: in the search path, every record whose id does not parse as a UUID
is silently skipped (`processItem` returns `none`, no exception), while a
`get` call with an identifier that does not parse as a UUID yields
`ProviderInvalidQueryError` for every possible response body — i.e. before
any network request is consulted. -/
theorem id_validation :
    (∀ (skip : Bool) (item : JObj),
      _valid_id (dpop item "id" JVal.null).1 = false →
      processItem skip item = .ok none)
    ∧ (∀ (identifier : JVal) (body : String),
      _valid_id identifier = false →
      get identifier body = .error .invalidQuery) := by
  constructor
  · intro skip item h
    unfold processItem
    simp only [dpop] at h ⊢
    simp [h]
  · intro identifier body h
    unfold get
    simp [h]

/-- Witness for C8: a concrete non-UUID record id is skipped and a
concrete non-UUID `get` identifier is rejected. -/
theorem id_validation_witness :
    processItem false [("id", .str "bogus")] = .ok none ∧
    get (.str "bogus") "\x7b\"Items\": [1]\x7d" = .error .invalidQuery := by
  constructor
  · exact id_validation.1 false [("id", .str "bogus")] (by decide)
  · exact id_validation.2 (.str "bogus") "\x7b\"Items\": [1]\x7d" (by decide)

/-! ### C9: query parameter mapping -/

theorem dget_foldl_dset_ne (props : List (String × JVal)) (p : JObj)
    (k : String) (h : ∀ kv ∈ props, kv.1 ≠ k) :
    dget (props.foldl (fun d kv => dset d kv.1 kv.2) p) k = dget p k := by
  induction props generalizing p with
  | nil => rfl
  | cons kv t ih =>
      simp only [List.foldl_cons]
      rw [ih (dset p kv.1 kv.2) fun e he => h e (List.mem_cons_of_mem kv he)]
      exact dget_dset_ne p kv.1 kv.2 k (h kv (List.mem_cons_self kv t))

/-- C9: for every non-empty 4-element bbox, `query` builds upstream params
with `east = minx`, `west = maxx`, `north = maxy`, `south = miny`, and the
1-based paging bounds `min = startindex + 1`, `max = startindex + limit`
(forwarded queryables must not shadow those six parameter names). -/
theorem query_param_mapping (minx miny maxx maxy : JVal) (si lim : Int)
    (props : List (String × JVal)) (q : Option String)
    (hprops : ∀ kv ∈ props,
      kv.1 ≠ "east" ∧ kv.1 ≠ "west" ∧ kv.1 ≠ "north" ∧ kv.1 ≠ "south" ∧
      kv.1 ≠ "min" ∧ kv.1 ≠ "max") :
    ∃ p, queryParams si lim [minx, miny, maxx, maxy] props q = .ok p ∧
      dget p "east" = some minx ∧ dget p "west" = some maxx ∧
      dget p "north" = some maxy ∧ dget p "south" = some miny ∧
      dget p "min" = some (.num ((si + 1 : Int) : ℚ)) ∧
      dget p "max" = some (.num ((si + lim : Int) : ℚ)) := by
  have base : ∀ kk : String, kk = "east" ∨ kk = "west" ∨ kk = "north" ∨
      kk = "south" ∨ kk = "min" ∨ kk = "max" →
      dget (props.foldl (fun d kv => dset d kv.1 kv.2)
        (dset (dset [("east", minx), ("west", maxx), ("north", maxy),
          ("south", miny)] "min" (.num ((si + 1 : Int) : ℚ)))
          "max" (.num ((si + lim : Int) : ℚ)))) kk =
      dget (dset (dset [("east", minx), ("west", maxx), ("north", maxy),
          ("south", miny)] "min" (.num ((si + 1 : Int) : ℚ)))
          "max" (.num ((si + lim : Int) : ℚ))) kk := by
    intro kk hk
    refine dget_foldl_dset_ne _ _ _ fun kv hin => ?_
    have := hprops kv hin
    rcases hk with h | h | h | h | h | h <;> subst h <;> tauto
  cases q with
  | none =>
      refine ⟨_, by unfold queryParams; rfl, ?_, ?_, ?_, ?_, ?_, ?_⟩ <;>
        rw [base _ (by tauto)] <;> rfl
  | some s =>
      refine ⟨_, by unfold queryParams; rfl, ?_, ?_, ?_, ?_, ?_, ?_⟩ <;>
        rw [dget_dset_ne _ "keyword" _ _ (by decide), base _ (by tauto)] <;> rfl

/-- Witness for C9: `bbox = [1, 2, 3, 4]`, `startindex = 20`,
`limit = 10` give `east: 1`, `west: 3`, `north: 4`, `south: 2`,
`min: 21`, `max: 30`. -/
theorem query_param_mapping_witness :
    ∃ p, queryParams 20 10 [.num 1, .num 2, .num 3, .num 4] [] (some "flood") = .ok p ∧
      dget p "east" = some (.num 1) ∧ dget p "west" = some (.num 3) ∧
      dget p "north" = some (.num 4) ∧ dget p "south" = some (.num 2) ∧
      dget p "min" = some (.num ((20 + 1 : Int) : ℚ)) ∧
      dget p "max" = some (.num ((20 + 10 : Int) : ℚ)) :=
  query_param_mapping (.num 1) (.num 2) (.num 3) (.num 4) 20 10 [] (some "flood")
    (fun kv hin => by simp at hin)

/-! ### C10: limit == 1 returns only the first surviving feature -/

/-- C10: when `_to_geojson` is called with `limit == 1` and more than one
record survives filtering, it returns just the first surviving feature (no
error, the rest silently discarded). -/
theorem limit_one_first_feature (d : JObj) (items : List JVal) (skip : Bool)
    (f1 f2 : JVal) (fs : List JVal) (nm : Option Int)
    (hitems : dgetD d "Items" (.arr []) = .arr items)
    (hloop : toGeoLoop skip items ([], none) = .ok (f1 :: f2 :: fs, nm)) :
    _to_geojson (.obj d) 1 skip = .ok f1 := by
  unfold _to_geojson
  simp only [pyGetD, ebind_ok, hitems, pyIter, hloop]
  rfl

set_option maxRecDepth 100000 in
/-- Witness for C10: two records survive, `limit == 1`, and only the first
feature is returned. -/
theorem limit_one_first_feature_witness :
    _to_geojson (.obj [("Items", .arr [.obj wItem1, .obj wItem2])]) 1 false =
      .ok wFeature1 :=
  limit_one_first_feature [("Items", .arr [.obj wItem1, .obj wItem2])]
    [.obj wItem1, .obj wItem2] false wFeature1 wFeature2 [] (some 7)
    (by rfl) (by rfl)

/-! ### Characterization of one processed record -/

theorem appendAssoc_pres (item : JObj) (lnk : JObj) (item' : JObj)
    (h : appendAssoc item lnk = .ok item') (k : String)
    (hk : k ≠ "associations") : dget item' k = dget item k := by
  unfold appendAssoc at h
  split at h
  · cases h
    exact dget_append_ne item "associations" _ k fun he => hk he.symm
  case _ l _ =>
    cases h
    exact dget_dset_ne item "associations" _ k fun he => hk he.symm
  · cases h

theorem processOptions_pres (opts : List JVal) (item item' : JObj)
    (h : processOptions opts item = .ok item') (k : String)
    (hk : k ≠ "associations") : dget item' k = dget item k := by
  induction opts generalizing item with
  | nil =>
      unfold processOptions at h
      cases h; rfl
  | cons o os ih =>
      unfold processOptions at h
      obtain ⟨r, hpo, hcont⟩ := ebind_ok_iff.mp h
      cases r with
      | none => exact ih item hcont
      | some lnk =>
          obtain ⟨item'', hap, hrest⟩ := ebind_ok_iff.mp hcont
          rw [ih item'' hrest, appendAssoc_pres item lnk item'' hap k hk]

theorem getcoords_snd (it it' : JObj) (c : JVal)
    (h : _getcoords it = .ok (it', c)) : it' = dremove it "coordinates" := by
  unfold _getcoords at h
  simp only [dpop] at h
  split at h
  · cases h; rfl
  · split at h
    · cases h; rfl
    · cases h; rfl
  · cases h

theorem featType_mk (feature2 : JObj) (x : JVal) :
    featType (.obj (dset feature2 "properties" x)) = dget feature2 "type" := by
  simp only [featType]
  exact dget_dset_ne feature2 "properties" x "type" (by decide)

theorem featGeometry_mk (feature2 : JObj) (x : JVal) :
    featGeometry (.obj (dset feature2 "properties" x)) =
      dget feature2 "geometry" := by
  simp only [featGeometry]
  exact dget_dset_ne feature2 "properties" x "geometry" (by decide)

theorem featHasExtent_mk (feature2 : JObj) (it : JObj) :
    featHasExtent (.obj (dset feature2 "properties" (.obj it))) =
      (dget it "extent").isSome := by
  simp only [featHasExtent, featProps, dget_dset_self]

/-- The operations following the geometry/extent step (dropping `options`,
deriving associations, dropping `graphicOverview`, optionally setting
`thumbnailUrl`) do not touch the `extent` member. -/
theorem extent_after_tail (item11 item13 : JObj) (opts : List JVal) (url : JVal)
    (hpo : processOptions opts (dremove item11 "options") = .ok item13) :
    dget (if pyTruthy url = true
          then dset (dremove item13 "graphicOverview") "thumbnailUrl" url
          else dremove item13 "graphicOverview") "extent" = dget item11 "extent" := by
  have h13 := processOptions_pres _ _ _ hpo "extent" (by decide)
  cases hu : pyTruthy url
  · rw [if_neg (by simp), dget_dremove_ne _ _ _ (by decide), h13,
      dget_dremove_ne _ _ _ (by decide)]
  · rw [if_pos rfl, dget_dset_ne _ _ _ _ (by decide),
      dget_dremove_ne _ _ _ (by decide), h13, dget_dremove_ne _ _ _ (by decide)]

/-- The operations preceding the geometry/extent step (id, externalId,
total, dates, keywords) do not touch the `extent` member. -/
theorem extent_before (o : JObj) (idv v1 v2 v3 v4 v5 : JVal) :
    dget (dset (dset (dset (dset (dset (dremove (dremove (dset (dremove o "id")
      "externalId" idv) "total") "published") "record-created" v1)
      "record-updated" v2) "created" v3) "updated" v4) "keywords" v5)
      "extent" = dget o "extent" := by
  rw [dget_dset_ne _ _ _ _ (by decide), dget_dset_ne _ _ _ _ (by decide),
    dget_dset_ne _ _ _ _ (by decide), dget_dset_ne _ _ _ _ (by decide),
    dget_dset_ne _ _ _ _ (by decide), dget_dremove_ne _ _ _ (by decide),
    dget_dremove_ne _ _ _ (by decide), dget_dset_ne _ _ _ _ (by decide),
    dget_dremove_ne _ _ _ (by decide)]

/-- Shape of every record that `processItem` turns into a feature: the
returned count is `int(total)` of the item; the feature's type is
`Feature`; and the geometry/extent outcome follows the three code paths:
truthy coordinates without `skip_geometry` give a Polygon geometry and an
extent; truthy coordinates with `skip_geometry` give a `null` geometry yet
an extent; falsy coordinates give a `null` geometry and (when the raw item
had no `extent` field of its own) no extent. -/
theorem processItem_shape (skip : Bool) (o : JObj) (f : JVal) (n : Int)
    (h : processItem skip o = .ok (some (f, n))) :
    pyInt (dgetD o "total" (.num 0)) = .ok n ∧
    featType f = some (.str "Feature") ∧
    ((∃ cs, pyTruthy cs = true ∧ skip = false ∧
        featGeometry f = some (.obj [("type", .str "Polygon"), ("coordinates", cs)]) ∧
        featHasExtent f = true)
     ∨ (∃ cs, pyTruthy cs = true ∧ skip = true ∧
        featGeometry f = some .null ∧ featHasExtent f = true)
     ∨ (featGeometry f = some .null ∧
        (dget o "extent" = none → featHasExtent f = false))) := by
  unfold processItem at h
  simp only [dpop] at h
  cases hv : _valid_id ((dget o "id").getD .null) with
  | false => simp [hv] at h
  | true =>
  simp only [hv] at h
  rw [if_neg (by simp)] at h
  obtain ⟨nmv, hpy, h⟩ := ebind_ok_iff.mp h
  obtain ⟨kw, hkw, h⟩ := ebind_ok_iff.mp h
  obtain ⟨pc, hgc, h⟩ := ebind_ok_iff.mp h
  obtain ⟨item10, coords⟩ := pc
  have htot : pyInt (dgetD o "total" (.num 0)) = .ok nmv := by
    have hkey : dget (dset (dremove o "id") "externalId"
        ((dget o "id").getD .null)) "total" = dget o "total" := by
      rw [dget_dset_ne _ _ _ _ (by decide), dget_dremove_ne _ _ _ (by decide)]
    rw [dgetD, ← hkey]
    exact hpy
  cases hpt : pyTruthy coords
  · -- falsy coordinates: geometry stays null, no extent is added
    rw [hpt] at h
    rw [if_neg (by simp)] at h
    obtain ⟨y, hy, h⟩ := ebind_ok_iff.mp h
    obtain ⟨feature2, item11⟩ := y
    simp only [Except.ok.injEq, Prod.mk.injEq] at hy
    obtain ⟨hfe, hit⟩ := hy
    obtain ⟨opts, hoi, h⟩ := ebind_ok_iff.mp h
    obtain ⟨item13, hpopts, h⟩ := ebind_ok_iff.mp h
    obtain ⟨gv0, hg0, h⟩ := ebind_ok_iff.mp h
    obtain ⟨url, hurl, h⟩ := ebind_ok_iff.mp h
    rw [epure_eq] at h
    simp only [Except.ok.injEq, Option.some.injEq, Prod.mk.injEq] at h
    obtain ⟨hf, hn⟩ := h
    subst hn
    refine ⟨htot, ?_, ?_⟩
    · rw [← hf, featType_mk, ← hfe]
      rfl
    · refine Or.inr (Or.inr ⟨?_, ?_⟩)
      · rw [← hf, featGeometry_mk, ← hfe]
        rfl
      · intro hext
        rw [← hf, featHasExtent_mk,
          extent_after_tail item11 item13 opts url hpopts, ← hit,
          getcoords_snd _ _ _ hgc, dget_dremove_ne _ _ _ (by decide),
          extent_before, hext]
        rfl
  · -- truthy coordinates: extent is added; geometry depends on skip
    rw [hpt] at h
    rw [if_pos rfl] at h
    obtain ⟨ext, hge, h⟩ := ebind_ok_iff.mp h
    obtain ⟨y, hy, h⟩ := ebind_ok_iff.mp h
    obtain ⟨feature2, item11⟩ := y
    simp only [Except.ok.injEq, Prod.mk.injEq] at hy
    obtain ⟨hfe, hit⟩ := hy
    obtain ⟨opts, hoi, h⟩ := ebind_ok_iff.mp h
    obtain ⟨item13, hpopts, h⟩ := ebind_ok_iff.mp h
    obtain ⟨gv0, hg0, h⟩ := ebind_ok_iff.mp h
    obtain ⟨url, hurl, h⟩ := ebind_ok_iff.mp h
    rw [epure_eq] at h
    simp only [Except.ok.injEq, Option.some.injEq, Prod.mk.injEq] at h
    obtain ⟨hf, hn⟩ := h
    subst hn
    have hhe : featHasExtent f = true := by
      rw [← hf, featHasExtent_mk,
        extent_after_tail item11 item13 opts url hpopts, ← hit, dget_dset_self]
      rfl
    refine ⟨htot, ?_, ?_⟩
    · rw [← hf, featType_mk, ← hfe]
      cases skip
      · rw [if_neg (by simp)]
        rfl
      · rw [if_pos rfl]
        rfl
    · cases hsk : skip
      · refine Or.inl ⟨coords, hpt, rfl, ?_, hhe⟩
        rw [← hf, featGeometry_mk, ← hfe, hsk]
        rw [if_neg (by simp), dget_dset_self]
      · refine Or.inr (Or.inl ⟨coords, hpt, rfl, ?_, hhe⟩)
        rw [← hf, featGeometry_mk, ← hfe, hsk]
        rw [if_pos rfl]
        rfl

/-! ### C2: geometry/extent invariant -/

set_option maxRecDepth 400000 in
/-- Counterexample for C2 as stated: with `skip_geometry=True` and truthy
coordinates, `_to_geojson` produces a feature whose geometry is `null`
while its properties carry a computed `extent` — extent without
geometry. -/
theorem extent_geometry_counterexample :
    _to_geojson (.obj [("Items", .arr [.obj c2Item])]) 1 true = .ok c2Feature ∧
    featGeometry c2Feature = some .null ∧
    featHasExtent c2Feature = true :=
  ⟨by rfl, by rfl, by rfl⟩

/-- C2 (amended): for every feature produced by `_to_geojson`'s per-record
transformation from an item without a raw `extent` field: the geometry is
`null` unless the parsed coordinates were truthy and `skip_geometry` was
false (so no-or-unparseable coordinates always give `null` geometry), and
when `skip_geometry` is false the extent is present exactly when the
geometry is non-null.  (With `skip_geometry=True` an extent can accompany
a `null` geometry — see the counterexample.) -/
theorem extent_geometry_amended (item : JObj) (skip : Bool) (f : JVal)
    (n : Int) (hrun : processItem skip item = .ok (some (f, n)))
    (hext : dget item "extent" = none) :
    (featGeometry f = some .null ∨
      ∃ cs, featGeometry f =
          some (.obj [("type", .str "Polygon"), ("coordinates", cs)]) ∧
        pyTruthy cs = true ∧ skip = false)
    ∧ (skip = false →
        (featHasExtent f = true ↔ featGeometry f ≠ some JVal.null)) := by
  obtain ⟨-, -, hC⟩ := processItem_shape skip item f n hrun
  rcases hC with ⟨cs, hcs, hskf, hg, he⟩ | ⟨cs, hcs, hskt, hg, he⟩ | ⟨hg, himp⟩
  · refine ⟨Or.inr ⟨cs, hg, hcs, hskf⟩, fun _ => ⟨fun _ => ?_, fun _ => he⟩⟩
    rw [hg]
    simp
  · refine ⟨Or.inl hg, fun hskf => ?_⟩
    rw [hskf] at hskt
    cases hskt
  · refine ⟨Or.inl hg, fun _ => ⟨fun hhe => ?_, fun hne => absurd hg hne⟩⟩
    rw [himp hext] at hhe
    cases hhe

set_option maxRecDepth 400000 in
/-- Witness for C2 (amended), at `c2Item` with `skip_geometry=False`:
the geometry is the Polygon and the extent accompanies it. -/
theorem extent_geometry_amended_witness :
    (featGeometry c2FeatureGeo = some .null ∨
      ∃ cs, featGeometry c2FeatureGeo =
          some (.obj [("type", .str "Polygon"), ("coordinates", cs)]) ∧
        pyTruthy cs = true ∧ false = false)
    ∧ (false = false →
        (featHasExtent c2FeatureGeo = true ↔
          featGeometry c2FeatureGeo ≠ some JVal.null)) :=
  extent_geometry_amended c2Item false c2FeatureGeo 0 (by rfl) (by rfl)

/-! ### C3: numberMatched reflects the upstream total -/

/-- When every item of the page reports the same upstream total `t`, the
loop's captured `num_matched` is either untouched (no record processed) or
`some t`, regardless of how many records survive. -/
theorem toGeoLoop_total (skip : Bool) (t : Int) :
    ∀ (items : List JVal),
      (∀ it ∈ items, ∃ o, it = JVal.obj o ∧
        pyInt (dgetD o "total" (.num 0)) = .ok t) →
      ∀ (fs0 : List JVal) (nm0 : Option Int) (fs' : List JVal) (nm' : Option Int),
        toGeoLoop skip items (fs0, nm0) = .ok (fs', nm') →
        (fs' = fs0 ∧ nm' = nm0) ∨ nm' = some t := by
  intro items
  induction items with
  | nil =>
      intro _ fs0 nm0 fs' nm' h
      unfold toGeoLoop at h
      simp only [Except.ok.injEq, Prod.mk.injEq] at h
      exact Or.inl ⟨h.1.symm, h.2.symm⟩
  | cons itm rest ih =>
      intro htot fs0 nm0 fs' nm' h
      obtain ⟨o, hio, hto⟩ := htot itm (List.mem_cons_self itm rest)
      subst hio
      unfold toGeoLoop at h
      obtain ⟨r, hpi, h⟩ := ebind_ok_iff.mp h
      have hrest : ∀ it ∈ rest, ∃ o, it = JVal.obj o ∧
          pyInt (dgetD o "total" (.num 0)) = .ok t :=
        fun e he => htot e (List.mem_cons_of_mem (JVal.obj o) he)
      cases r with
      | none => exact ih hrest fs0 nm0 fs' nm' h
      | some p =>
          obtain ⟨f, n⟩ := p
          have hn : n = t := by
            have hsh := (processItem_shape skip o f n hpi).1
            rw [hto] at hsh
            exact (Except.ok.injEq _ _ ▸ hsh).symm
          rw [hn] at h
          rcases ih hrest (fs0 ++ [f]) (some t) fs' nm' h with ⟨-, h2⟩ | h2 <;>
            exact Or.inr h2

/-- C3: for every FeatureCollection returned by `_to_geojson` (which is
every successful result with `limit ≠ 1`), when all items of the page
report the same upstream total `t`, `numberMatched` equals `t` —
independently of how many records survived per-record filtering — and is
present only when `t` is nonzero. -/
theorem numberMatched_upstream_total (d : JObj) (items : List JVal)
    (limit : Int) (skip : Bool) (t : Int) (res : JVal)
    (hitems : dgetD d "Items" (.arr []) = .arr items)
    (htot : ∀ it ∈ items, ∃ o, it = JVal.obj o ∧
      pyInt (dgetD o "total" (.num 0)) = .ok t)
    (hlim : limit ≠ 1)
    (hrun : _to_geojson (.obj d) limit skip = .ok res) :
    featType res = some (.str "FeatureCollection") ∧
    collNumberMatched res =
      (if t = 0 then none else some (.num (t : ℚ))) := by
  unfold _to_geojson at hrun
  simp only [pyGetD, ebind_ok, hitems, pyIter] at hrun
  obtain ⟨p, hloop, hrun⟩ := ebind_ok_iff.mp hrun
  obtain ⟨features, nm⟩ := p
  dsimp only [] at hrun
  cases features with
  | nil => exact absurd hrun (by simp)
  | cons f fs =>
      have hnm : nm = some t := by
        rcases toGeoLoop_total skip t items htot [] none (f :: fs) nm hloop
          with ⟨h1, -⟩ | h2
        · cases h1
        · exact h2
      subst hnm
      dsimp only [] at hrun
      rw [if_neg hlim] at hrun
      by_cases ht : t = 0
      · subst ht
        rw [if_neg (by simp)] at hrun
        rw [epure_eq] at hrun
        simp only [Except.ok.injEq] at hrun
        subst hrun
        exact ⟨rfl, by rw [if_pos rfl]; rfl⟩
      · rw [if_pos ht] at hrun
        rw [epure_eq] at hrun
        simp only [Except.ok.injEq] at hrun
        subst hrun
        constructor
        · simp only [featType]
          rw [dget_dset_ne _ _ _ _ (by decide)]
          rfl
        · simp only [collNumberMatched]
          rw [dget_dset_self, if_neg ht]

set_option maxRecDepth 400000 in
/-- Witness for C3: two records reporting `total = 7`; the collection's
`numberMatched` is 7. -/
theorem numberMatched_upstream_total_witness :
    featType wCollection = some (.str "FeatureCollection") ∧
    collNumberMatched wCollection =
      (if (7 : Int) = 0 then none else some (.num ((7 : Int) : ℚ))) :=
  numberMatched_upstream_total [("Items", .arr [.obj wItem1, .obj wItem2])]
    [.obj wItem1, .obj wItem2] 10 false 7 wCollection (by rfl)
    (fun it hit => by
      rcases List.mem_cons.mp hit with h | h
      · exact ⟨wItem1, h, by rfl⟩
      · exact ⟨wItem2, List.mem_singleton.mp h, by rfl⟩)
    (by decide) (by rfl)

/-! ### C7: result assembly contract -/

/-- C7: when zero records survive filtering, `_to_geojson` raises
`ProviderNoDataError`; when `limit == 1` the lone (first) surviving
feature is returned bare; otherwise a FeatureCollection is returned whose
`numberReturned` equals the number of survivors; and a `get` whose parsed
upstream response has no truthy `Items` raises
`ProviderItemNotFoundError`. -/
theorem assembly_contract :
    (∀ (d : JObj) (items : List JVal) (limit : Int) (skip : Bool)
        (nm : Option Int),
      dgetD d "Items" (.arr []) = .arr items →
      toGeoLoop skip items ([], none) = .ok ([], nm) →
      _to_geojson (.obj d) limit skip = .error .noData)
    ∧ (∀ (d : JObj) (items : List JVal) (skip : Bool) (f : JVal)
        (fs : List JVal) (nm : Option Int),
      dgetD d "Items" (.arr []) = .arr items →
      toGeoLoop skip items ([], none) = .ok (f :: fs, nm) →
      _to_geojson (.obj d) 1 skip = .ok f)
    ∧ (∀ (d : JObj) (items : List JVal) (limit : Int) (skip : Bool)
        (f : JVal) (fs : List JVal) (nm : Option Int) (res : JVal),
      dgetD d "Items" (.arr []) = .arr items →
      toGeoLoop skip items ([], none) = .ok (f :: fs, nm) →
      limit ≠ 1 →
      _to_geojson (.obj d) limit skip = .ok res →
      featType res = some (.str "FeatureCollection") ∧
      collNumberReturned res = some (.num ((fs.length + 1 : Nat) : ℚ)))
    ∧ (∀ (identifier : JVal) (body : String) (j : JVal) (itemsv : JVal),
      _valid_id identifier = true →
      _parse_json body = .ok j →
      pyGetD j "Items" (.arr []) = .ok itemsv →
      pyTruthy itemsv = false →
      get identifier body = .error .itemNotFound) := by
  refine ⟨?_, ?_, ?_, ?_⟩
  · intro d items limit skip nm hitems hloop
    unfold _to_geojson
    simp only [pyGetD, ebind_ok, hitems, pyIter, hloop]
  · intro d items skip f fs nm hitems hloop
    unfold _to_geojson
    simp only [pyGetD, ebind_ok, hitems, pyIter, hloop]
    rfl
  · intro d items limit skip f fs nm res hitems hloop hlim hrun
    unfold _to_geojson at hrun
    simp only [pyGetD, ebind_ok, hitems, pyIter, hloop, ebind_ok] at hrun
    rw [if_neg hlim] at hrun
    cases nm with
    | none =>
        dsimp only [] at hrun
        rw [epure_eq] at hrun
        simp only [Except.ok.injEq] at hrun
        subst hrun
        exact ⟨rfl, rfl⟩
    | some n =>
        dsimp only [] at hrun
        by_cases hn : n ≠ 0
        · rw [if_pos hn, epure_eq] at hrun
          simp only [Except.ok.injEq] at hrun
          subst hrun
          constructor
          · simp only [featType]
            rw [dget_dset_ne _ _ _ _ (by decide)]
            rfl
          · simp only [collNumberReturned]
            rw [dget_dset_ne _ _ _ _ (by decide)]
            rfl
        · rw [if_neg hn, epure_eq] at hrun
          simp only [Except.ok.injEq] at hrun
          subst hrun
          exact ⟨rfl, rfl⟩
  · intro identifier body j itemsv hvalid hparse hitems htruthy
    unfold get
    rw [hvalid]
    rw [if_neg (by simp)]
    simp only [hparse, ebind_ok, hitems, htruthy]
    rfl

set_option maxRecDepth 400000 in
/-- Witness for C7: an empty page raises NoDataError; a single-record page
with `limit == 1` returns the bare feature; a two-record page with
`limit == 10` returns a collection with `numberReturned = 2`; a `get`
whose upstream body has `Items: []` raises ItemNotFoundError. -/
theorem assembly_contract_witness :
    _to_geojson (.obj [("Items", .arr [])]) 10 false = .error .noData ∧
    _to_geojson (.obj [("Items", .arr [.obj wItem1])]) 1 false = .ok wFeature1 ∧
    (featType wCollection = some (.str "FeatureCollection") ∧
      collNumberReturned wCollection = some (.num ((1 + 1 : Nat) : ℚ))) ∧
    get (.str "c2a654b1-05a9-4f3c-9d83-52a23f3bc3d7") "\x7b\"Items\": []\x7d" =
      .error .itemNotFound := by
  refine ⟨?_, ?_, ?_, ?_⟩
  · exact assembly_contract.1 [("Items", .arr [])] [] 10 false none
      (by rfl) (by rfl)
  · exact assembly_contract.2.1 [("Items", .arr [.obj wItem1])] [.obj wItem1]
      false wFeature1 [] (some 7) (by rfl) (by rfl)
  · exact assembly_contract.2.2.1 [("Items", .arr [.obj wItem1, .obj wItem2])]
      [.obj wItem1, .obj wItem2] 10 false wFeature1 [wFeature2] (some 7)
      wCollection (by rfl) (by rfl) (by decide) (by rfl)
  · exact assembly_contract.2.2.2
      (.str "c2a654b1-05a9-4f3c-9d83-52a23f3bc3d7") "\x7b\"Items\": []\x7d"
      (.obj [("Items", .arr [])]) (.arr [])
      (by decide) (by rfl) (by rfl) (by rfl)

/-! ### C1: date normalization -/

/-- Counterexample for C1 as stated: `"2020-05-03"` does not normalize to
`"2020-05-03T00:00:00Z"` (and `"2020"` not to `"2020-01-01T00:00:00Z"`):
the generator `int(i) if i else 1` defaults the *time* groups to 1 as
well, so the actual results end in `T01:01:01Z`. -/
theorem asisodate_claim_counterexample :
    _asisodate (.str "2020-05-03") = some "2020-05-03T01:01:01Z" ∧
    _asisodate (.str "2020-05-03") ≠ some "2020-05-03T00:00:00Z" ∧
    _asisodate (.str "2020") = some "2020-01-01T01:01:01Z" ∧
    _asisodate (.str "2020") ≠ some "2020-01-01T00:00:00Z" :=
  ⟨by rfl, by decide, by rfl, by decide⟩

/-- C1 (amended): `"2020-05-03"` yields `"2020-05-03T01:01:01Z"` and
`"2020"` yields `"2020-01-01T01:01:01Z"` (every missing component —
month, day, and the time components — defaults to `1`); `"0001-01-01"`
yields `null` (year 1 is treated as no date); `None` yields `null`; any
string not matched by `DATE_REGEX`, and any non-string value, yields
`null`; no input raises. -/
theorem asisodate_amended :
    _asisodate (.str "2020-05-03") = some "2020-05-03T01:01:01Z" ∧
    _asisodate (.str "2020") = some "2020-01-01T01:01:01Z" ∧
    _asisodate (.str "0001-01-01") = none ∧
    _asisodate JVal.null = none ∧
    (∀ s : String, dateMatch s = none → _asisodate (.str s) = none) ∧
    (∀ v : JVal, (∀ s, v ≠ JVal.str s) → _asisodate v = none) := by
  refine ⟨by rfl, by rfl, by rfl, by rfl, ?_, ?_⟩
  · intro s h
    unfold _asisodate
    dsimp only []
    rw [h]
  · intro v hv
    cases v
    case str s => exact absurd rfl (hv s)
    all_goals rfl

/-- Witness for C1 (amended): a non-matching string and a non-string value
both normalize to `null`. -/
theorem asisodate_amended_witness :
    _asisodate (.str "no date here") = none ∧
    _asisodate (.num 5) = none :=
  ⟨asisodate_amended.2.2.2.2.1 "no date here" (by rfl),
   asisodate_amended.2.2.2.2.2 (.num 5) (fun s h => nomatch h)⟩

/-! ### C6: link (association) derivation -/

theorem appendAssoc_assocs (item : JObj) (lnk : JObj) (item' : JObj)
    (h : appendAssoc item lnk = .ok item') :
    assocsOf item' = assocsOf item ++ [.obj lnk] := by
  unfold appendAssoc at h
  split at h
  case _ heq =>
      cases h
      unfold assocsOf
      rw [heq, dget_append_self item "associations" _ heq]
      rfl
  case _ l heq =>
      cases h
      unfold assocsOf
      rw [heq, dget_dset_self]
  · cases h

theorem processOptions_assocs : ∀ (opts : List JVal) (item item' : JObj),
    processOptions opts item = .ok item' →
    ∃ ls, collectLinks opts = .ok ls ∧
      assocsOf item' = assocsOf item ++ ls := by
  intro opts
  induction opts with
  | nil =>
      intro item item' h
      unfold processOptions at h
      cases h
      exact ⟨[], rfl, by simp⟩
  | cons o os ih =>
      intro item item' h
      unfold processOptions at h
      obtain ⟨r, hpo, hcont⟩ := ebind_ok_iff.mp h
      cases r with
      | none =>
          obtain ⟨ls, hcl, hassoc⟩ := ih item item' hcont
          refine ⟨ls, ?_, hassoc⟩
          unfold collectLinks
          rw [hpo, ebind_ok]
          exact hcl
      | some lnk =>
          obtain ⟨item'', hap, hrest⟩ := ebind_ok_iff.mp hcont
          obtain ⟨ls, hcl, hassoc⟩ := ih item'' item' hrest
          refine ⟨.obj lnk :: ls, ?_, ?_⟩
          · unfold collectLinks
            rw [hpo, ebind_ok]
            dsimp only []
            rw [hcl, ebind_ok]
            rfl
          · rw [hassoc, appendAssoc_assocs item lnk item'' hap]
            simp

/-- Counterexample for C6 as stated: an entry with description
`"text/html;related;EN"` (exactly two `;`) yields a link whose `hreflang`
is `"en"` — the *lowercased* third part — not the third part `"EN"`
itself. -/
theorem associations_claim_counterexample :
    processOptions [c6Opt] [] = .ok [("associations", .arr [.obj c6Link])] ∧
    dget c6Link "hreflang" = some (.str "en") ∧
    ("en" : String) ≠ "EN" :=
  ⟨by rfl, by rfl, by decide⟩

/-- C6 (amended): an options entry whose localized description contains
exactly two `;` produces (when it produces a link at all) a link whose
`type` and `rel` are the first two `;`-split parts and whose `hreflang` is
the lowercased third part; an entry whose `url` is falsy (in particular an
entry missing both a url and a resolvable type) yields no link; and the
surviving links accumulate onto the item's `associations` list in
encounter order. -/
theorem associations_amended :
    (∀ (opt : JVal) (ds p1 p2 p3 : String) (r : JObj),
      descOf opt = .ok (.str ds) →
      countChar ';' ds = 2 →
      splitChar ';' ds = [p1, p2, p3] →
      processOpt opt = .ok (some r) →
      dget r "type" = some (.str p1) ∧ dget r "rel" = some (.str p2) ∧
      dget r "hreflang" = some (.str (pyLower p3)))
    ∧ (∀ (opt : JVal) (r : Option JObj) (u : JVal),
      urlOf opt = .ok u → pyTruthy u = false →
      processOpt opt = .ok r → r = none)
    ∧ (∀ (opts : List JVal) (item item' : JObj),
      processOptions opts item = .ok item' →
      ∃ ls, collectLinks opts = .ok ls ∧
        assocsOf item' = assocsOf item ++ ls) := by
  refine ⟨?_, ?_, processOptions_assocs⟩
  · intro opt ds p1 p2 p3 r hd hcount hsplit hrun
    obtain ⟨dv, hdv, hdd⟩ := ebind_ok_iff.mp hd
    unfold processOpt at hrun
    obtain ⟨url, hurl, hrun⟩ := ebind_ok_iff.mp hrun
    obtain ⟨namev, hnm, hrun⟩ := ebind_ok_iff.mp hrun
    obtain ⟨title, hti, hrun⟩ := ebind_ok_iff.mp hrun
    obtain ⟨protocol, hpr, hrun⟩ := ebind_ok_iff.mp hrun
    obtain ⟨descv, hdv2, hrun⟩ := ebind_ok_iff.mp hrun
    obtain ⟨desc, hdd2, hrun⟩ := ebind_ok_iff.mp hrun
    rw [hdv] at hdv2
    injection hdv2 with hdv2
    subst hdv2
    rw [hdd] at hdd2
    injection hdd2 with hdd2
    subst hdd2
    obtain ⟨tri, htri, hrun⟩ := ebind_ok_iff.mp hrun
    have hne : ds ≠ "" := by
      intro he
      subst he
      simp [countChar] at hcount
    unfold optOverride at htri
    rw [if_pos (by simp [pyTruthy, hne])] at htri
    dsimp only [] at htri
    rw [if_pos hcount, hsplit] at htri
    simp only [Except.ok.injEq] at htri
    subst htri
    dsimp only [] at hrun
    by_cases hc : pyTruthy (JVal.str p1) = true ∧ pyTruthy url = true
    · rw [if_neg (by simp [hc.1, hc.2]), epure_eq] at hrun
      simp only [Except.ok.injEq, Option.some.injEq] at hrun
      subst hrun
      exact ⟨rfl, rfl, rfl⟩
    · rw [if_pos (by simpa using hc), epure_eq] at hrun
      simp at hrun
  · intro opt r u hu hufalse hrun
    unfold processOpt at hrun
    obtain ⟨url, hurl, hrun⟩ := ebind_ok_iff.mp hrun
    unfold urlOf at hu
    rw [hu] at hurl
    injection hurl with hurl
    subst hurl
    obtain ⟨namev, hnm, hrun⟩ := ebind_ok_iff.mp hrun
    obtain ⟨title, hti, hrun⟩ := ebind_ok_iff.mp hrun
    obtain ⟨protocol, hpr, hrun⟩ := ebind_ok_iff.mp hrun
    obtain ⟨descv, hdv2, hrun⟩ := ebind_ok_iff.mp hrun
    obtain ⟨desc, hdd2, hrun⟩ := ebind_ok_iff.mp hrun
    obtain ⟨tri, htri, hrun⟩ := ebind_ok_iff.mp hrun
    obtain ⟨t_, rel, i18n⟩ := tri
    dsimp only [] at hrun
    rw [if_pos (by simp [hufalse]), epure_eq] at hrun
    simp only [Except.ok.injEq] at hrun
    exact hrun.symm

/-- Witness for C6 (amended): the concrete entry `c6Opt` produces the
override link; an entry without a url produces no link; and `c6Opt`'s
link is the sole accumulated association. -/
theorem associations_amended_witness :
    (dget c6Link "type" = some (.str "text/html") ∧
      dget c6Link "rel" = some (.str "related") ∧
      dget c6Link "hreflang" = some (.str (pyLower "EN"))) ∧
    (none : Option JObj) = none ∧
    (∃ ls, collectLinks [c6Opt] = .ok ls ∧
      assocsOf [("associations", .arr [.obj c6Link])] = assocsOf [] ++ ls) := by
  refine ⟨?_, ?_, ?_⟩
  · exact associations_amended.1 c6Opt "text/html;related;EN" "text/html"
      "related" "EN" c6Link (by rfl) (by rfl) (by rfl) (by rfl)
  · exact associations_amended.2.1 (.obj [("protocol", .str "HTTP")])
      (none : Option JObj) JVal.null (by rfl) (by rfl) (by rfl)
  · exact associations_amended.2.2 [c6Opt] []
      [("associations", .arr [.obj c6Link])] (by rfl)

/-! ### C5: bounding-box computation -/

theorem pyMin2_num (x a : ℚ) :
    pyMin2 (.num x) (.num a) = .ok (.num (min a x)) := by
  unfold pyMin2 asPyNum
  simp only [ebind_ok]
  by_cases h : a < x
  · simp [pyNumLt, h, min_eq_left h.le, epure_eq]
  · simp [pyNumLt, h, min_eq_right (le_of_not_lt h), epure_eq]

theorem pyMax2_num (x c : ℚ) :
    pyMax2 (.num x) (.num c) = .ok (.num (max c x)) := by
  unfold pyMax2 asPyNum
  simp only [ebind_ok]
  by_cases h : x < c
  · simp [pyNumLt, h, max_eq_left h.le, epure_eq]
  · simp [pyNumLt, h, max_eq_right (le_of_not_lt h), epure_eq]

theorem bboxPoint_nan (x y : ℚ) :
    bboxPoint (.nan, .nan, .nan, .nan) (.arr [.num x, .num y]) =
      .ok (.num x, .num y, .num x, .num y) := rfl

theorem bboxPoint_num (a b c d x y : ℚ) :
    bboxPoint (.num a, .num b, .num c, .num d) (.arr [.num x, .num y]) =
      .ok (.num (min a x), .num (min b y), .num (max c x), .num (max d y)) := by
  unfold bboxPoint
  rw [show unpack2 (.arr [.num x, .num y]) = Except.ok (JVal.num x, JVal.num y)
    from rfl, ebind_ok]
  dsimp only []
  rw [pyMin2_num, ebind_ok, pyMin2_num, ebind_ok, pyMax2_num, ebind_ok,
    pyMax2_num, ebind_ok]
  rfl

theorem bboxPts_inv (pts : List (ℚ × ℚ)) :
    ∀ acc S, bboxInv acc S →
      ∃ acc', bboxPts (pts.map fun p => .arr [.num p.1, .num p.2]) acc = .ok acc' ∧
        bboxInv acc' (S ++ pts) := by
  induction pts with
  | nil =>
      intro acc S h
      exact ⟨acc, rfl, by simpa using h⟩
  | cons p rest ih =>
      intro acc S h
      obtain ⟨x, y⟩ := p
      rcases h with ⟨hS, hacc⟩ | ⟨a, b, c, d, hacc, hb⟩
      · subst hacc
        subst hS
        obtain ⟨acc', hrun, hinv⟩ := ih (.num x, .num y, .num x, .num y)
          [(x, y)]
          (Or.inr ⟨x, y, x, y, rfl, by
            intro q hq
            rw [List.mem_singleton] at hq
            subst hq
            exact ⟨le_refl _, le_refl _, le_refl _, le_refl _⟩⟩)
        refine ⟨acc', ?_, by simpa using hinv⟩
        simp only [List.map_cons, bboxPts, bboxPoint_nan, ebind_ok]
        exact hrun
      · subst hacc
        obtain ⟨acc', hrun, hinv⟩ := ih
          (.num (min a x), .num (min b y), .num (max c x), .num (max d y))
          (S ++ [(x, y)])
          (Or.inr ⟨min a x, min b y, max c x, max d y, rfl, by
            intro q hq
            rcases List.mem_append.mp hq with hq | hq
            · obtain ⟨h1, h2, h3, h4⟩ := hb q hq
              exact ⟨le_trans (min_le_left a x) h1, le_trans (min_le_left b y) h2,
                le_trans h3 (le_max_left c x), le_trans h4 (le_max_left d y)⟩
            · rw [List.mem_singleton] at hq
              subst hq
              exact ⟨min_le_right a x, min_le_right b y,
                le_max_right c x, le_max_right d y⟩⟩)
        refine ⟨acc', ?_, by simpa [List.append_assoc] using hinv⟩
        simp only [List.map_cons, bboxPts, bboxPoint_num, ebind_ok]
        exact hrun

theorem bboxParts_inv (rs : List (List (ℚ × ℚ))) :
    ∀ acc S, bboxInv acc S →
      ∃ acc', bboxParts (rs.map fun r => .arr (r.map fun p =>
          .arr [.num p.1, .num p.2])) acc = .ok acc' ∧
        bboxInv acc' (S ++ rs.flatten) := by
  induction rs with
  | nil =>
      intro acc S h
      exact ⟨acc, rfl, by simpa using h⟩
  | cons r rest ih =>
      intro acc S h
      obtain ⟨acc1, hrun1, hinv1⟩ := bboxPts_inv r acc S h
      obtain ⟨acc', hrun, hinv⟩ := ih acc1 (S ++ r) hinv1
      refine ⟨acc', ?_, by simpa [List.append_assoc] using hinv⟩
      simp only [List.map_cons, bboxParts, pyIter, ebind_ok, hrun1]
      exact hrun

/-- C5: for every coordinate ring list, the bbox `[minx, miny, maxx,
maxy]` computed by `_getbbox` satisfies `minx ≤ x ≤ maxx` and
`miny ≤ y ≤ maxy` for every point `[x, y]` of every ring; for the empty
ring list all four components are `NaN`. -/
theorem getbbox_bounds (rs : List (List (ℚ × ℚ))) :
    (rs = [] → _getbbox (ringsToJVal rs) = .ok [.nan, .nan, .nan, .nan]) ∧
    (∀ x y : ℚ, (x, y) ∈ rs.flatten → ∃ a b c d : ℚ,
      _getbbox (ringsToJVal rs) = .ok [.num a, .num b, .num c, .num d] ∧
      a ≤ x ∧ x ≤ c ∧ b ≤ y ∧ y ≤ d) := by
  constructor
  · intro h
    subst h
    rfl
  · intro x y hmem
    obtain ⟨acc', hrun, hinv⟩ := bboxParts_inv rs (.nan, .nan, .nan, .nan) []
      (Or.inl ⟨rfl, rfl⟩)
    rcases hinv with ⟨hS, -⟩ | ⟨a, b, c, d, hacc, hb⟩
    · rw [List.nil_append] at hS
      rw [hS] at hmem
      cases hmem
    · subst hacc
      obtain ⟨h1, h2, h3, h4⟩ := hb (x, y) (by simpa using hmem)
      refine ⟨a, b, c, d, ?_, h1, h3, h2, h4⟩
      unfold _getbbox ringsToJVal
      simp only [pyIter, ebind_ok, hrun]
      rfl

/-- Witness for C5: the empty ring list gives the all-NaN box, and the
point `(1, 2)` of the ring `[(1, 2), (3, 4)]` is bounded by the computed
box. -/
theorem getbbox_bounds_witness :
    _getbbox (ringsToJVal []) = .ok [.nan, .nan, .nan, .nan] ∧
    (∃ a b c d : ℚ,
      _getbbox (ringsToJVal [[(1, 2), (3, 4)]]) = .ok [.num a, .num b, .num c, .num d] ∧
      a ≤ 1 ∧ 1 ≤ c ∧ b ≤ 2 ∧ 2 ≤ d) :=
  ⟨(getbbox_bounds []).1 rfl,
   (getbbox_bounds [[(1, 2), (3, 4)]]).2 1 2 (by simp)⟩

/-! ### C4: the JSON repair substitution -/

theorem isPrefix_drop (l1 : List Char) : ∀ l2 : List Char,
    l1.isPrefixOf l2 = true → l2 = l1 ++ l2.drop l1.length := by
  induction l1 with
  | nil => intro l2 _; simp
  | cons c t ih =>
      intro l2 h
      cases l2 with
      | nil => simp [List.isPrefixOf] at h
      | cons c2 t2 =>
          simp only [List.isPrefixOf, Bool.and_eq_true, beq_iff_eq] at h
          obtain ⟨hc, hp⟩ := h
          subst hc
          simpa using ih t2 hp

theorem findCloser_decomp : ∀ (cs acc b rest : List Char),
    findCloser acc cs = some (b, rest) →
    ∃ b', b = acc ++ b' ∧ cs = b' ++ closer ++ rest ∧ 1 ≤ b'.length := by
  intro cs
  induction cs with
  | nil => intro acc b rest h; simp [findCloser] at h
  | cons c t ih =>
      intro acc b rest h
      unfold findCloser at h
      by_cases hn : c = '\n'
      · rw [if_pos hn] at h; cases h
      rw [if_neg hn] at h
      by_cases hp : closer.isPrefixOf t = true
      · rw [if_pos hp] at h
        simp only [Option.some.injEq, Prod.mk.injEq] at h
        obtain ⟨hb, hr⟩ := h
        refine ⟨[c], hb.symm, ?_, by simp⟩
        have hdr := isPrefix_drop closer t hp
        have h5 : closer.length = 5 := rfl
        rw [h5] at hdr
        rw [← hr]
        have h2 : c :: t = [c] ++ (closer ++ List.drop 5 t) := by
          rw [← hdr]
          rfl
        rw [h2, List.append_assoc]
      · rw [if_neg hp] at h
        obtain ⟨b', hb, hcs, hlen⟩ := ih (acc ++ [c]) b rest h
        refine ⟨c :: b', by simpa using hb, by simpa using hcs, by simp⟩

theorem tryMatchAt_decomp (cs m rest : List Char)
    (h : tryMatchAt cs = some (m, rest)) :
    cs = m ++ rest ∧ 11 ≤ m.length := by
  unfold tryMatchAt at h
  by_cases hp : opener.isPrefixOf cs = true
  · rw [if_pos hp] at h
    cases hc : findCloser [] (cs.drop 5) with
    | none => rw [hc] at h; cases h
    | some br =>
        obtain ⟨body, rest'⟩ := br
        rw [hc] at h
        simp only [Option.some.injEq, Prod.mk.injEq] at h
        obtain ⟨hm, hr⟩ := h
        obtain ⟨b', hb, hdrop, hlen⟩ := findCloser_decomp _ _ _ _ hc
        have hbody : body = b' := by simpa using hb
        have hcs0 : cs = opener ++ cs.drop 5 := by
          have := isPrefix_drop opener cs hp
          exact this
        subst hbody hr hm
        constructor
        · rw [hcs0, hdrop]
          simp
        · simp only [List.length_append]
          have h5o : opener.length = 5 := rfl
          have h5c : closer.length = 5 := rfl
          omega
  · rw [if_neg hp] at h; cases h

theorem findMatch_decomp : ∀ (cs p m rest : List Char),
    findMatch cs = some (p, m, rest) →
    cs = p ++ m ++ rest ∧ 11 ≤ m.length := by
  intro cs
  induction cs with
  | nil => intro p m rest h; simp [findMatch] at h
  | cons c t ih =>
      intro p m rest h
      unfold findMatch at h
      cases ht : tryMatchAt (c :: t) with
      | some mr =>
          obtain ⟨m', rest'⟩ := mr
          rw [ht] at h
          simp only [Option.some.injEq, Prod.mk.injEq] at h
          obtain ⟨hp, hm, hr⟩ := h
          obtain ⟨hcs, hlen⟩ := tryMatchAt_decomp _ _ _ ht
          subst hp hm hr
          exact ⟨by simpa using hcs, hlen⟩
      | none =>
          rw [ht] at h
          cases hf : findMatch t with
          | none => rw [hf] at h; cases h
          | some pmr =>
              obtain ⟨p', m', r'⟩ := pmr
              rw [hf] at h
              simp only [Option.some.injEq, Prod.mk.injEq] at h
              obtain ⟨hp, hm, hr⟩ := h
              obtain ⟨hcs, hlen⟩ := ih p' m' r' hf
              subst hp hm hr
              exact ⟨by simpa using hcs, hlen⟩

theorem subAux_succ (f : Nat) (cs : List Char) :
    subAux (f + 1) cs =
      (match findMatch cs with
       | none => Except.ok cs
       | some (p, m, rest) => do
           let u ← unescapePosix m
           let r ← subAux f rest
           Except.ok (p ++ u ++ r)) := rfl

theorem subAux_suffices : ∀ (f : Nat) (cs : List Char), cs.length ≤ f →
    subAux f cs = subAux cs.length cs := by
  intro f
  induction f using Nat.strong_induction_on with
  | _ f ih =>
      intro cs hle
      cases f with
      | zero =>
          have : cs = [] := List.length_eq_zero.mp (Nat.le_zero.mp hle)
          subst this
          rfl
      | succ fp =>
          cases hm : findMatch cs with
          | none =>
              cases cs with
              | nil => rfl
              | cons c t =>
                  show subAux (fp + 1) (c :: t) = subAux (c :: t).length (c :: t)
                  simp only [List.length_cons]
                  rw [subAux_succ, subAux_succ, hm]
          | some pmr =>
              obtain ⟨p, m, rest⟩ := pmr
              obtain ⟨hd, hl⟩ := findMatch_decomp cs p m rest hm
              have hcs_len : cs.length = p.length + m.length + rest.length := by
                rw [hd]
                simp [List.length_append]
                omega
              obtain ⟨k, hk⟩ : ∃ k, cs.length = k + 1 :=
                ⟨cs.length - 1, by omega⟩
              rw [hk]
              rw [subAux_succ, subAux_succ, hm]
              dsimp only []
              have h1 : subAux fp rest = subAux rest.length rest :=
                ih fp (Nat.lt_succ_self fp) rest (by omega)
              have h2 : subAux k rest = subAux rest.length rest :=
                ih k (by omega) rest (by omega)
              rw [h1, h2]

/-- Counterexample for C4 as stated: `c4x1` is a well-formed JSON body
(a JSON string literal), yet the repair rewrites it to `z` — so the
repair is not a no-op on well-formed bodies; and `c4x0` repairs to
`c4x1`, whose repair differs again — so the repair is not idempotent. -/
theorem repair_claim_counterexample :
    (json_loads (String.mk c4x1)).isSome = true ∧
    jsonRegexSub c4x1 = .ok ['z'] ∧
    jsonRegexSub c4x0 = .ok c4x1 ∧
    c4x1 ≠ ['z'] :=
  ⟨by rfl, by rfl, by rfl, by decide⟩

/-- C4 (amended): the repair substitution never alters substrings outside
the spans matched by the escaped-string pattern — a body without a match
is returned unchanged, and a body with a leftmost match decomposes as
`pre ++ match ++ rest` with the repair equal to `pre`, unchanged, followed
by the replacement of the match and the repair of the rest.  (It is *not*
idempotent in general and *not* a no-op on every well-formed JSON body —
see the counterexample.) -/
theorem repair_amended (cs : List Char) :
    (findMatch cs = none → jsonRegexSub cs = .ok cs) ∧
    (∀ p m rest, findMatch cs = some (p, m, rest) →
      cs = p ++ m ++ rest ∧ 11 ≤ m.length ∧
      jsonRegexSub cs = do
        let u ← unescapePosix m
        let r ← jsonRegexSub rest
        Except.ok (p ++ u ++ r)) := by
  constructor
  · intro h
    unfold jsonRegexSub
    cases cs with
    | nil => rfl
    | cons c t =>
        simp only [List.length_cons]
        unfold subAux
        rw [h]
  · intro p m rest hm
    obtain ⟨hd, hl⟩ := findMatch_decomp cs p m rest hm
    refine ⟨hd, hl, ?_⟩
    unfold jsonRegexSub
    have hcs_len : cs.length = p.length + m.length + rest.length := by
      rw [hd]
      simp [List.length_append]
      omega
    obtain ⟨k, hk⟩ : ∃ k, cs.length = k + 1 := ⟨cs.length - 1, by omega⟩
    rw [hk, subAux_succ, hm]
    dsimp only []
    rw [subAux_suffices k rest (by omega)]

set_option maxRecDepth 400000 in
/-- Witness for C4 (amended): a plain body has no match and is returned
unchanged; `c4x0` decomposes around its leftmost match `c4Span`. -/
theorem repair_amended_witness :
    jsonRegexSub "hello".toList = .ok "hello".toList ∧
    (c4x0 = ['"'] ++ c4Span ++ ['\\', '"', '\\', '"', 'z', '\\', '"', '\\', '"', '"'] ∧
      11 ≤ c4Span.length ∧
      jsonRegexSub c4x0 = do
        let u ← unescapePosix c4Span
        let r ← jsonRegexSub ['\\', '"', '\\', '"', 'z', '\\', '"', '\\', '"', '"']
        Except.ok (['"'] ++ u ++ r)) :=
  ⟨(repair_amended "hello".toList).1 (by rfl),
   (repair_amended c4x0).2 ['"'] c4Span
     ['\\', '"', '\\', '"', 'z', '\\', '"', '\\', '"', '"'] (by rfl)⟩

end GeoCore
